import Mathlib

/-!
Verification of the indicator / scoring core of `nse-trend-stocks`
(`backend/main.py`, classes `TechnicalEngine` and `ScoringEngine`).

The Python code computes over pandas Series of IEEE double values, where
missing history and degenerate divisions surface as `NaN` (and a nonzero
value divided by zero as `±inf`).  We embed such values as the type `PF`
(a rational, `NaN`, or a signed infinity) and each pandas column as a
`List PF`, mirroring the source's column-by-column computation.
-/

set_option maxRecDepth 40000

/-- A pandas float: NaN, +inf, -inf, or a (rational-valued) number. -/
inductive PF where
  | nan
  | pinf
  | ninf
  | val (q : ℚ)
deriving DecidableEq

namespace PF

/-- Models `pd.isna` on a scalar. -/
def isna : PF → Bool
  | .nan => true
  | _ => false

/-- Models `pd.notna` on a scalar (infinities count as present, exactly as in pandas). -/
def notna : PF → Bool
  | .nan => false
  | _ => true

/-- IEEE-style negation. -/
def neg : PF → PF
  | .nan => .nan
  | .pinf => .ninf
  | .ninf => .pinf
  | .val q => .val (-q)

/-- IEEE-style addition: NaN propagates, `+inf + -inf = NaN`. -/
def add : PF → PF → PF
  | .nan, _ => .nan
  | _, .nan => .nan
  | .pinf, .ninf => .nan
  | .ninf, .pinf => .nan
  | .pinf, _ => .pinf
  | _, .pinf => .pinf
  | .ninf, _ => .ninf
  | _, .ninf => .ninf
  | .val a, .val b => .val (a + b)

/-- IEEE-style subtraction: NaN propagates, `inf - inf = NaN`. -/
def sub : PF → PF → PF
  | .nan, _ => .nan
  | _, .nan => .nan
  | .pinf, .pinf => .nan
  | .ninf, .ninf => .nan
  | .pinf, _ => .pinf
  | .ninf, _ => .ninf
  | .val _, .pinf => .ninf
  | .val _, .ninf => .pinf
  | .val a, .val b => .val (a - b)

/-- IEEE-style multiplication: NaN propagates, `0 * inf = NaN`. -/
def mul : PF → PF → PF
  | .nan, _ => .nan
  | _, .nan => .nan
  | .pinf, .pinf => .pinf
  | .pinf, .ninf => .ninf
  | .ninf, .pinf => .ninf
  | .ninf, .ninf => .pinf
  | .pinf, .val b => if b = 0 then .nan else if 0 < b then .pinf else .ninf
  | .val a, .pinf => if a = 0 then .nan else if 0 < a then .pinf else .ninf
  | .ninf, .val b => if b = 0 then .nan else if 0 < b then .ninf else .pinf
  | .val a, .ninf => if a = 0 then .nan else if 0 < a then .ninf else .pinf
  | .val a, .val b => .val (a * b)

/-- IEEE-style division as numpy float64 performs it: `0/0 = NaN`,
`x/0 = ±inf` for nonzero `x`, `inf/inf = NaN`, `x/±inf = 0`. -/
def div : PF → PF → PF
  | .nan, _ => .nan
  | _, .nan => .nan
  | .pinf, .pinf => .nan
  | .pinf, .ninf => .nan
  | .ninf, .pinf => .nan
  | .ninf, .ninf => .nan
  | .pinf, .val b => if b < 0 then .ninf else .pinf
  | .ninf, .val b => if b < 0 then .pinf else .ninf
  | .val _, .pinf => .val 0
  | .val _, .ninf => .val 0
  | .val a, .val b =>
      if b = 0 then (if a = 0 then .nan else if 0 < a then .pinf else .ninf)
      else .val (a / b)

/-- IEEE-style absolute value. -/
def abs : PF → PF
  | .nan => .nan
  | .pinf => .pinf
  | .ninf => .pinf
  | .val q => .val |q|

/-- Models `np.sign`: NaN for NaN, else -1/0/1. -/
def sgn : PF → PF
  | .nan => .nan
  | .pinf => .val 1
  | .ninf => .val (-1)
  | .val q => .val (if q < 0 then -1 else if q = 0 then 0 else 1)

/-- Strict `<` on floats: any comparison against NaN is false. -/
def lt : PF → PF → Bool
  | .nan, _ => false
  | _, .nan => false
  | .ninf, .ninf => false
  | .ninf, _ => true
  | .pinf, _ => false
  | .val _, .pinf => true
  | .val _, .ninf => false
  | .val a, .val b => decide (a < b)

/-- Models `≤` on floats: any comparison against NaN is false. -/
def le : PF → PF → Bool
  | .nan, _ => false
  | _, .nan => false
  | .ninf, _ => true
  | .pinf, .pinf => true
  | .pinf, _ => false
  | .val _, .pinf => true
  | .val _, .ninf => false
  | .val a, .val b => decide (a ≤ b)

/-- Strict `>` on floats. -/
def gt (a b : PF) : Bool := PF.lt b a

/-- Models `≥` on floats. -/
def ge (a b : PF) : Bool := PF.le b a

/-- Binary max with NaN skipped (the `skipna` behaviour of
`pd.DataFrame.max(axis=1)` and of `Series.max`). -/
def max2 : PF → PF → PF
  | .nan, b => b
  | a, .nan => a
  | a, b => if PF.lt a b then b else a

/-- Is this an actual (finite) number?  `isReal = true` is what the
specification calls a *defined* indicator value. -/
def isReal : PF → Bool
  | .val _ => true
  | _ => false

end PF

/-- Elementary series builder: index `i` of the result is `f i`.
All aligned pandas column operations below are phrased through it. -/
def buildSeries (n : ℕ) (f : ℕ → PF) : List PF := (List.range n).map f

theorem buildSeries_length (n : ℕ) (f : ℕ → PF) : (buildSeries n f).length = n := by
  simp [buildSeries]

theorem buildSeries_getD (n : ℕ) (f : ℕ → PF) (i : ℕ) (d : PF) (h : i < n) :
    (buildSeries n f).getD i d = f i := by
  simp [buildSeries, List.getD_eq_getElem?_getD, List.getElem?_map,
    List.getElem?_range h]

theorem buildSeries_congr (n : ℕ) (f g : ℕ → PF) (h : ∀ i, i < n → f i = g i) :
    buildSeries n f = buildSeries n g := by
  unfold buildSeries
  exact List.map_congr_left fun i hi => h i (List.mem_range.mp hi)

/-- Elementwise map keeping alignment (used for scalar broadcasts). -/
def mapF (f : PF → PF) (xs : List PF) : List PF :=
  buildSeries xs.length fun i => f (xs.getD i PF.nan)

/-- Elementwise binary operation on two aligned columns. -/
def map2F (f : PF → PF → PF) (xs ys : List PF) : List PF :=
  buildSeries xs.length fun i => f (xs.getD i PF.nan) (ys.getD i PF.nan)

/-- Models `Series.diff(k)`: difference with the value `k` rows earlier. -/
def diffF (k : ℕ) (xs : List PF) : List PF :=
  buildSeries xs.length fun i =>
    if i < k then PF.nan else (xs.getD i PF.nan).sub (xs.getD (i - k) PF.nan)

/-- Models `Series.shift(k)`. -/
def shiftF (k : ℕ) (xs : List PF) : List PF :=
  buildSeries xs.length fun i => if i < k then PF.nan else xs.getD (i - k) PF.nan

/-- Sum of a list of floats. -/
def sumPF (l : List PF) : PF := l.foldl PF.add (PF.val 0)

/-- The trailing window of width `w` ending at index `i` (defined for `i + 1 ≥ w`). -/
def windowAt (w i : ℕ) (xs : List PF) : List PF :=
  (List.range w).map fun j => xs.getD (i + 1 - w + j) PF.nan

/-- Models `Series.rolling(w).mean()` with the default `min_periods = w`: NaN until the
window is full or when the window contains a NaN, else the mean of the window. -/
def rollingMean (w : ℕ) (xs : List PF) : List PF :=
  buildSeries xs.length fun i =>
    if i + 1 < w then PF.nan
    else
      let win := windowAt w i xs
      if win.any PF.isna then PF.nan else (sumPF win).div (PF.val w)

/-- Models `Series.rolling(w).max()` with the default `min_periods = w`. -/
def rollingMax (w : ℕ) (xs : List PF) : List PF :=
  buildSeries xs.length fun i =>
    if i + 1 < w then PF.nan
    else
      let win := windowAt w i xs
      if win.any PF.isna then PF.nan else win.foldl PF.max2 PF.nan

/-- Kernel-computable integer square root (largest `k` with `k * k ≤ n`). -/
def sqrtNatLin (n : ℕ) : ℕ :=
  (List.range (n + 1)).foldl (fun acc k => if k * k ≤ n then k else acc) 0

/-- Rational stand-in for the real square root (exact on perfect squares, in
particular at `0`, where the repository's zero-width Bollinger band arises).
The scoring pipeline only consumes the standard deviation through definedness
checks and through the Bollinger position of degenerate (zero-width) bands,
neither of which depends on the value of a nonzero, non-square root. -/
def ratSqrtApprox (q : ℚ) : ℚ :=
  (sqrtNatLin q.num.toNat : ℚ) / (sqrtNatLin q.den : ℚ)

/-- Square root on pandas floats (`sqrt` of a negative number is NaN). -/
def pfSqrt : PF → PF
  | PF.nan => PF.nan
  | PF.pinf => PF.pinf
  | PF.ninf => PF.nan
  | PF.val q => if q < 0 then PF.nan else PF.val (ratSqrtApprox q)

/-- Models `Series.rolling(w).std()` with pandas' default `ddof = 1`. -/
def rollingStd (w : ℕ) (xs : List PF) : List PF :=
  buildSeries xs.length fun i =>
    if i + 1 < w then PF.nan
    else
      let win := windowAt w i xs
      if win.any PF.isna then PF.nan
      else
        let m := (sumPF win).div (PF.val w)
        let devsq := win.map fun x => (x.sub m).mul (x.sub m)
        pfSqrt ((sumPF devsq).div (PF.val (w - 1 : ℕ)))

/-- Models `Series.ewm(span, adjust=False).mean()` recursion.  For the columns this
repository smooths the input never contains NaN; leading NaNs would delay the
seeding and interior NaNs would repeat the previous smoothed value. -/
def ewmStep (a : ℚ) (prev x : PF) : PF :=
  if x.isna then prev
  else if prev.isna then x
  else ((PF.val a).mul x).add ((PF.val (1 - a)).mul prev)

def ewmAux (a : ℚ) : PF → List PF → List PF
  | _, [] => []
  | prev, x :: rest => ewmStep a prev x :: ewmAux a (ewmStep a prev x) rest

/-- Models `Series.ewm(span=period, adjust=False).mean()` with `α = 2 / (span + 1)`. -/
def ewmMean (span : ℕ) (xs : List PF) : List PF :=
  ewmAux (2 / ((span : ℚ) + 1)) PF.nan xs

/-- Models `Series.cumsum()` (NaN entries stay NaN and are skipped in the running sum). -/
def cumsumAux : PF → List PF → List PF
  | _, [] => []
  | acc, x :: rest =>
      if x.isna then PF.nan :: cumsumAux acc rest
      else (acc.add x) :: cumsumAux (acc.add x) rest

/-- Models `Series.cumsum()`. -/
def cumsumF (xs : List PF) : List PF := cumsumAux (PF.val 0) xs

/-- Models `Series.fillna(v)`. -/
def fillnaF (xs : List PF) (v : ℚ) : List PF :=
  mapF (fun x => if x.isna then PF.val v else x) xs

/-- Models `Series.mean()` (skips NaN; NaN when nothing remains). -/
def seriesMean (xs : List PF) : PF :=
  let vals := xs.filter fun x => !x.isna
  if vals.isEmpty then PF.nan else (sumPF vals).div (PF.val vals.length)

/-- Models `Series.max()` (skips NaN; NaN when nothing remains). -/
def seriesMax (xs : List PF) : PF := xs.foldl PF.max2 PF.nan

/-- Models `series.iloc[-k]` (`k ≥ 1`): `none` models the `IndexError` raised when
fewer than `k` rows exist. -/
def ilocNeg (xs : List PF) (k : ℕ) : Option PF :=
  if 1 ≤ k ∧ k ≤ xs.length then some (xs.getD (xs.length - k) PF.nan) else none

/-- Models `series.iloc[-k]` for a boolean column. -/
def ilocNegBool (xs : List Bool) (k : ℕ) : Option Bool :=
  if 1 ≤ k ∧ k ≤ xs.length then some (xs.getD (xs.length - k) false) else none

/-- Models `series.iloc[-k:]` (Python clamps the start to 0). -/
def lastSlice (xs : List PF) (k : ℕ) : List PF := xs.drop (xs.length - k)

/-- Models `series.iloc[-a:-b]` (Python clamps both ends to 0). -/
def sliceNeg (xs : List PF) (a b : ℕ) : List PF :=
  (xs.take (xs.length - b)).drop (xs.length - a)

/-- Models `series.iloc[::k]`: every `k`-th element starting from the first. -/
def everyKth (k : ℕ) (xs : List PF) : List PF :=
  (List.range xs.length).filterMap fun i =>
    if i % k = 0 then some (xs.getD i PF.nan) else none

/-!  ## Data model (§3 of the specification)  -/

/-- One daily OHLCV bar. -/
structure Bar where
  date : ℕ
  openPrice : ℚ
  high : ℚ
  low : ℚ
  close : ℚ
  volume : ℚ
deriving DecidableEq

/-- Strictly increasing dates along the series. -/
def datesStrictMono : List Bar → Bool
  | [] => true
  | [_] => true
  | a :: b :: rest => decide (a.date < b.date) && datesStrictMono (b :: rest)

/-- The §3 PriceSeries invariants: positive prices, non-negative volume,
`low ≤ min(open, close) ≤ max(open, close) ≤ high`, strictly increasing dates. -/
def validSeries (bars : List Bar) : Bool :=
  datesStrictMono bars &&
  bars.all fun b =>
    decide (0 < b.openPrice) && decide (0 < b.high) && decide (0 < b.low) &&
    decide (0 < b.close) && decide (0 ≤ b.volume) &&
    decide (b.low ≤ min b.openPrice b.close) &&
    decide (max b.openPrice b.close ≤ b.high)

/-- The augmented dataframe built by `TechnicalEngine.calculate_all_indicators`:
the raw columns plus one aligned column per indicator. -/
structure AugSeries where
  Date : List ℕ
  Open : List PF
  High : List PF
  Low : List PF
  Close : List PF
  Volume : List PF
  EMA_20 : List PF
  SMA_50 : List PF
  SMA_200 : List PF
  EMA_20_slope : List PF
  SMA_50_slope : List PF
  SMA_200_slope : List PF
  RSI : List PF
  ROC : List PF
  MACD : List PF
  MACD_Signal : List PF
  MACD_Hist : List PF
  Hist_Momentum : List PF
  ADX : List PF
  Plus_DI : List PF
  Minus_DI : List PF
  DI_Spread : List PF
  ADX_Rising : List Bool
  Vol_SMA_20 : List PF
  Vol_SMA_50 : List PF
  Vol_Ratio : List PF
  OBV : List PF
  OBV_EMA : List PF
  BB_Upper : List PF
  BB_Middle : List PF
  BB_Lower : List PF
  BB_Position : List PF
  ATR : List PF
  ATR_Percent : List PF
  High_52W : List PF
  High_4W : List PF
  High_2W : List PF
deriving DecidableEq

/-!  ## `TechnicalEngine` (main.py lines 206–345)  -/

/-- Models `TechnicalEngine.calculate_ema`: `close.ewm(span=period, adjust=False).mean()`. -/
def calculate_ema (close : List PF) (period : ℕ) : List PF := ewmMean period close

/-- Models `TechnicalEngine.calculate_sma`: `close.rolling(window=period).mean()`. -/
def calculate_sma (close : List PF) (period : ℕ) : List PF := rollingMean period close

/-- Models `gain` inside `TechnicalEngine.calculate_rsi`:
`(delta.where(delta > 0, 0)).rolling(window=period).mean()`. -/
def rsiGain (period : ℕ) (close : List PF) : List PF :=
  let delta := diffF 1 close
  rollingMean period (buildSeries delta.length fun i =>
    let d := delta.getD i PF.nan
    if d.gt (PF.val 0) then d else PF.val 0)

/-- Models `loss` inside `TechnicalEngine.calculate_rsi`:
`(-delta.where(delta < 0, 0)).rolling(window=period).mean()`. -/
def rsiLoss (period : ℕ) (close : List PF) : List PF :=
  let delta := diffF 1 close
  rollingMean period (mapF PF.neg (buildSeries delta.length fun i =>
    let d := delta.getD i PF.nan
    if d.lt (PF.val 0) then d else PF.val 0))

/-- Models `TechnicalEngine.calculate_rsi`: `100 - 100 / (1 + gain / loss)`. -/
def calculate_rsi (period : ℕ) (close : List PF) : List PF :=
  let rs := map2F PF.div (rsiGain period close) (rsiLoss period close)
  mapF (fun r => (PF.val 100).sub ((PF.val 100).div ((PF.val 1).add r))) rs

/-- Models `TechnicalEngine.calculate_macd`: returns `(macd, signal, histogram)`. -/
def calculate_macd (close : List PF) : List PF × List PF × List PF :=
  let ema12 := calculate_ema close 12
  let ema26 := calculate_ema close 26
  let macd := map2F PF.sub ema12 ema26
  let signal := ewmMean 9 macd
  let histogram := map2F PF.sub macd signal
  (macd, signal, histogram)

/-- True range `max(high-low, |high-prevClose|, |low-prevClose|)` as built with
`pd.concat([...]).max(axis=1)` (NaN entries are skipped by the max). -/
def trueRange (high low close : List PF) : List PF :=
  let tr1 := map2F PF.sub high low
  let tr2 := mapF PF.abs (map2F PF.sub high (shiftF 1 close))
  let tr3 := mapF PF.abs (map2F PF.sub low (shiftF 1 close))
  buildSeries high.length fun i =>
    PF.max2 (PF.max2 (tr1.getD i PF.nan) (tr2.getD i PF.nan)) (tr3.getD i PF.nan)

/-- Models `TechnicalEngine.calculate_adx`: returns `(adx, plus_di, minus_di)`. -/
def calculate_adx (high low close : List PF) (period : ℕ) :
    List PF × List PF × List PF :=
  let high_diff := diffF 1 high
  let low_diff := mapF PF.neg (diffF 1 low)
  let plus_dm := buildSeries high.length fun i =>
    let hd := high_diff.getD i PF.nan
    let ld := low_diff.getD i PF.nan
    if hd.gt ld && hd.gt (PF.val 0) then hd else PF.val 0
  let minus_dm := buildSeries high.length fun i =>
    let hd := high_diff.getD i PF.nan
    let ld := low_diff.getD i PF.nan
    if ld.gt hd && ld.gt (PF.val 0) then ld else PF.val 0
  let tr := trueRange high low close
  let atr := rollingMean period tr
  let plus_di := mapF (fun x => (PF.val 100).mul x)
    (map2F PF.div (rollingMean period plus_dm) atr)
  let minus_di := mapF (fun x => (PF.val 100).mul x)
    (map2F PF.div (rollingMean period minus_dm) atr)
  let dx := map2F (fun p m => ((PF.val 100).mul ((p.sub m).abs)).div (p.add m))
    plus_di minus_di
  let adx := rollingMean period dx
  (adx, plus_di, minus_di)

/-- Models `TechnicalEngine.calculate_bollinger_bands`: returns `(upper, middle, lower)`. -/
def calculate_bollinger_bands (close : List PF) (period : ℕ) (std_dev : ℚ) :
    List PF × List PF × List PF :=
  let middle := calculate_sma close period
  let std := rollingStd period close
  let upper := map2F PF.add middle (mapF (fun s => s.mul (PF.val std_dev)) std)
  let lower := map2F PF.sub middle (mapF (fun s => s.mul (PF.val std_dev)) std)
  (upper, middle, lower)

/-- Models `TechnicalEngine.calculate_atr`. -/
def calculate_atr (high low close : List PF) (period : ℕ) : List PF :=
  rollingMean period (trueRange high low close)

/-- Models `TechnicalEngine.calculate_obv`:
`(np.sign(close.diff()) * volume).fillna(0).cumsum()`. -/
def calculate_obv (close volume : List PF) : List PF :=
  cumsumF (fillnaF (map2F PF.mul (mapF PF.sgn (diffF 1 close)) volume) 0)

/-- Models `TechnicalEngine.calculate_roc`:
`(close - close.shift(period)) / close.shift(period) * 100`. -/
def calculate_roc (close : List PF) (period : ℕ) : List PF :=
  map2F (fun c s => ((c.sub s).div s).mul (PF.val 100)) close (shiftF period close)

/-- Models `Series.pct_change(k)` (`xs / xs.shift(k) - 1`; the columns it is applied
to have no interior NaN, so forward-filling is the identity). -/
def pctChange (k : ℕ) (xs : List PF) : List PF :=
  map2F (fun a b => (a.div b).sub (PF.val 1)) xs (shiftF k xs)

/-- Models `TechnicalEngine.calculate_all_indicators` (main.py lines 288–345). -/
def calculate_all_indicators (bars : List Bar) : AugSeries :=
  let close := bars.map fun b => PF.val b.close
  let high := bars.map fun b => PF.val b.high
  let low := bars.map fun b => PF.val b.low
  let volume := bars.map fun b => PF.val b.volume
  let ema20 := calculate_ema close 20
  let sma50 := calculate_sma close 50
  let sma200 := calculate_sma close 200
  let macdT := calculate_macd close
  let macd := macdT.1
  let signal := macdT.2.1
  let histogram := macdT.2.2
  let adxT := calculate_adx high low close 14
  let adx := adxT.1
  let plus_di := adxT.2.1
  let minus_di := adxT.2.2
  let vol_sma20 := rollingMean 20 volume
  let obv := calculate_obv close volume
  let bbT := calculate_bollinger_bands close 20 2
  let bb_upper := bbT.1
  let bb_middle := bbT.2.1
  let bb_lower := bbT.2.2
  let atr := calculate_atr high low close 14
  { Date := bars.map Bar.date
    Open := bars.map fun b => PF.val b.openPrice
    High := high
    Low := low
    Close := close
    Volume := volume
    EMA_20 := ema20
    SMA_50 := sma50
    SMA_200 := sma200
    EMA_20_slope := mapF (fun x => x.mul (PF.val 100)) (pctChange 5 ema20)
    SMA_50_slope := mapF (fun x => x.mul (PF.val 100)) (pctChange 5 sma50)
    SMA_200_slope := mapF (fun x => x.mul (PF.val 100)) (pctChange 5 sma200)
    RSI := calculate_rsi 14 close
    ROC := calculate_roc close 10
    MACD := macd
    MACD_Signal := signal
    MACD_Hist := histogram
    Hist_Momentum := diffF 3 histogram
    ADX := adx
    Plus_DI := plus_di
    Minus_DI := minus_di
    DI_Spread := map2F PF.sub plus_di minus_di
    ADX_Rising := (diffF 3 adx).map fun d => d.gt (PF.val 0)
    Vol_SMA_20 := vol_sma20
    Vol_SMA_50 := rollingMean 50 volume
    Vol_Ratio := mapF (fun x => x.mul (PF.val 100)) (map2F PF.div volume vol_sma20)
    OBV := obv
    OBV_EMA := ewmMean 20 obv
    BB_Upper := bb_upper
    BB_Middle := bb_middle
    BB_Lower := bb_lower
    BB_Position := buildSeries close.length fun i =>
      (((close.getD i PF.nan).sub (bb_lower.getD i PF.nan)).div
        ((bb_upper.getD i PF.nan).sub (bb_lower.getD i PF.nan))).mul (PF.val 100)
    ATR := atr
    ATR_Percent := map2F (fun a c => (a.div c).mul (PF.val 100)) atr close
    High_52W := rollingMax 252 high
    High_4W := rollingMax 20 high
    High_2W := rollingMax 10 high }

/-!  ## `ScoringEngine` (main.py lines 351–679)

Each category method is wrapped in `try/except Exception` in the source: an
`IndexError` from an out-of-range `iloc` read aborts the rest of the category
but keeps the points accumulated so far.  The `match`es on `ilocNeg` below
reproduce exactly that control flow; every other statement of the source is
total on any input.  -/

/-- Models "Price Position" block of `score_trend_alignment` (12 points). -/
def pricePositionPoints (current ema20 sma50 sma200 : PF) : ℕ :=
  if ema20.notna && sma50.notna && sma200.notna then
    if current.gt ema20 && ema20.gt sma50 && sma50.gt sma200 then 12
    else if current.gt sma50 && sma50.gt sma200 then 10
    else if current.gt sma50 then 7
    else if current.gt (sma50.mul (PF.val (97/100))) then 4
    else 0
  else 0

/-- Models "MA Slopes" block of `score_trend_alignment` (8 points). -/
def maSlopePoints (s20 s50 s200 : PF) : ℕ :=
  if (s20.notna && s20.gt (PF.val 2)) && (s50.notna && s50.gt (PF.val 2)) &&
      (s200.notna && s200.gt (PF.val 2)) then 8
  else if s20.gt (PF.val 2) && s50.gt (PF.val 2) then 6
  else if s20.gt (PF.val 2) then 3
  else 0

/-- Models "MA Divergence" block of `score_trend_alignment` (5 points). -/
def maDivergencePoints (ema20 sma50 sma200 : PF) : ℕ :=
  if ema20.notna && sma50.notna && sma200.notna then
    if ema20.gt sma50 && sma50.gt sma200 then
      let spacing := ((ema20.sub sma50).div sma50).mul (PF.val 100)
      if spacing.gt (PF.val 2) then 5
      else if spacing.gt (PF.val 0) then 3
      else 0
    else 0
  else 0

/-- Models `ScoringEngine.score_trend_alignment` (cap 25). -/
def score_trend_alignment (df : AugSeries) : ℕ :=
  match ilocNeg df.Close 1, ilocNeg df.EMA_20 1, ilocNeg df.SMA_50 1,
      ilocNeg df.SMA_200 1 with
  | some current, some ema20, some sma50, some sma200 =>
    let s1 := pricePositionPoints current ema20 sma50 sma200
    match ilocNeg df.EMA_20_slope 1, ilocNeg df.SMA_50_slope 1,
        ilocNeg df.SMA_200_slope 1 with
    | some s20, some s50, some s200 =>
        s1 + maSlopePoints s20 s50 s200 + maDivergencePoints ema20 sma50 sma200
    | _, _, _ => s1
  | _, _, _, _ => 0

/-- ADX tier block of `score_momentum_strength` (10 points). -/
def adxPoints (adx : PF) : ℕ :=
  if adx.notna then
    if adx.gt (PF.val 40) then 10
    else if adx.gt (PF.val 30) then 8
    else if adx.gt (PF.val 25) then 6
    else if adx.gt (PF.val 20) then 4
    else 0
  else 0

/-- DI-spread block of `score_momentum_strength` (5 points). -/
def diSpreadPoints (di : PF) (rising : Bool) : ℕ :=
  if di.notna then
    if di.gt (PF.val 10) && rising then 5
    else if di.gt (PF.val 5) then 3
    else if di.gt (PF.val 0) then 1
    else 0
  else 0

/-- RSI band block of `score_momentum_strength` (8 points). -/
def rsiPoints (rsi : PF) : ℕ :=
  if rsi.notna then
    if (PF.val 60).le rsi && rsi.le (PF.val 70) then 8
    else if (PF.val 55).le rsi && rsi.le (PF.val 65) then 6
    else if (PF.val 50).le rsi && rsi.le (PF.val 60) then 4
    else if (PF.val 45).le rsi && rsi.le (PF.val 55) then 2
    else 0
  else 0

/-- ROC tier block of `score_momentum_strength` (4 points). -/
def rocPoints (roc : PF) : ℕ :=
  if roc.notna then
    if roc.gt (PF.val 8) then 4
    else if roc.gt (PF.val 4) then 3
    else if roc.gt (PF.val 2) then 2
    else if roc.gt (PF.val 0) then 1
    else 0
  else 0

/-- MACD state block of `score_momentum_strength` (8 points). -/
def macdPoints (macd signal hist hist_mom : PF) : ℕ :=
  if macd.notna && signal.notna then
    if macd.gt signal && hist.gt (PF.val 0) && hist_mom.gt (PF.val 0) then 8
    else if macd.gt signal && hist.gt (PF.val 0) then 6
    else if macd.gt signal then 4
    else 0
  else 0

/-- Models `ScoringEngine.score_momentum_strength` (cap 35). -/
def score_momentum_strength (df : AugSeries) : ℕ :=
  match ilocNeg df.ADX 1 with
  | none => 0
  | some adx =>
    let s1 := adxPoints adx
    match ilocNeg df.DI_Spread 1, ilocNegBool df.ADX_Rising 1 with
    | some di, some rising =>
      let s2 := s1 + diSpreadPoints di rising
      match ilocNeg df.RSI 1 with
      | none => s2
      | some rsi =>
        let s3 := s2 + rsiPoints rsi
        match ilocNeg df.ROC 1 with
        | none => s3
        | some roc =>
          let s4 := s3 + rocPoints roc
          match ilocNeg df.MACD 1, ilocNeg df.MACD_Signal 1,
              ilocNeg df.MACD_Hist 1, ilocNeg df.Hist_Momentum 1 with
          | some m, some sg, some h, some hm => s4 + macdPoints m sg h hm
          | _, _, _, _ => s4
    | _, _ => s1

/-- Volume-surge tier block of `score_volume_liquidity` (8 points). -/
def volSurgePoints (vr : PF) : ℕ :=
  if vr.notna then
    if vr.gt (PF.val 200) then 8
    else if vr.gt (PF.val 150) then 6
    else if vr.gt (PF.val 120) then 4
    else if vr.gt (PF.val 100) then 2
    else 0
  else 0

/-- OBV position block of `score_volume_liquidity` (6 points). -/
def obvPoints (obv obv_ema obv_high : PF) : ℕ :=
  if obv.notna && obv_ema.notna then
    if obv.ge obv_high then 6
    else if obv.gt obv_ema then 4
    else 2
  else 0

/-- Volume-price confirmation block of `score_volume_liquidity` (6 points):
10-day means of volume and close against the prior 10-day means. -/
def volumePriceConfirmPoints (volume close : List PF) : ℕ :=
  let vol_trend := (seriesMean (lastSlice volume 10)).div (seriesMean (sliceNeg volume 20 10))
  let price_trend := (seriesMean (lastSlice close 10)).div (seriesMean (sliceNeg close 20 10))
  if vol_trend.gt (PF.val 1) && price_trend.gt (PF.val 1) then 6
  else if vol_trend.gt (PF.val 1) || price_trend.gt (PF.val 1) then 3
  else 0

/-- Models `ScoringEngine.score_volume_liquidity` (cap 20). -/
def score_volume_liquidity (df : AugSeries) : ℕ :=
  match ilocNeg df.Vol_Ratio 1 with
  | none => 0
  | some vr =>
    let s1 := volSurgePoints vr
    match ilocNeg df.OBV 1, ilocNeg df.OBV_EMA 1 with
    | some obv, some obvema =>
        s1 + obvPoints obv obvema (seriesMax (lastSlice df.OBV 50)) +
          volumePriceConfirmPoints df.Volume df.Close
    | _, _ => s1

/-- The descending scan of `score_price_action_breakouts`: consecutive rises
counted from the end of the 5-day-sampled closes (list given reversed). -/
def risesRev : List PF → ℕ
  | a :: b :: rest => if a.gt b then 1 + risesRev (b :: rest) else 0
  | _ => 0

/-- Weekly-momentum streak block of `score_price_action_breakouts` (10 points). -/
def weeklyMomentumPoints (close : List PF) : ℕ :=
  let weekly_closes := everyKth 5 (lastSlice close 35)
  let consecutive := risesRev weekly_closes.reverse
  if consecutive ≥ 5 then 10
  else if consecutive ≥ 3 then 7
  else if consecutive ≥ 2 then 4
  else if consecutive ≥ 1 then 2
  else 0

/-- Breakout-quality block of `score_price_action_breakouts` (8 points). -/
def breakoutQualityPoints (current h52 h4 h2 vr : PF) : ℕ :=
  if h52.notna && current.ge (h52.mul (PF.val (995/1000))) && vr.gt (PF.val 150) then 8
  else if h4.notna && current.ge (h4.mul (PF.val (995/1000))) then 7
  else if h2.notna && current.ge (h2.mul (PF.val (995/1000))) then 5
  else 0

/-- Least-squares slope of `np.polyfit(range(n), ys, 1)`.  For a single point
the rank-deficient minimal-norm solution has slope 0; `np.polyfit` raises
`LinAlgError` on NaN input, which the caller's `except` turns into 0 points. -/
def polyfitSlope (ys : List PF) : PF :=
  let n := ys.length
  if n ≤ 1 then PF.val 0
  else
    let sx : ℚ := (n * (n - 1) : ℕ) / 2
    let sxx : ℚ := ((n - 1) * n * (2 * n - 1) : ℕ) / 6
    let sy := sumPF ys
    let sxy := sumPF (ys.enum.map fun p => p.2.mul (PF.val p.1))
    (((PF.val n).mul sxy).sub ((PF.val sx).mul sy)).div
      (PF.val ((n : ℚ) * sxx - sx * sx))

/-- Support/resistance block of `score_price_action_breakouts` (7 points). -/
def lowTrendPoints (lows highs : List PF) : ℕ :=
  if 0 < lows.length && 0 < highs.length then
    if lows.any PF.isna then 0
    else if (polyfitSlope lows).gt (PF.val 0) then 7 else 3
  else 0

/-- Models `ScoringEngine.score_price_action_breakouts` (cap 25). -/
def score_price_action_breakouts (df : AugSeries) : ℕ :=
  match ilocNeg df.Close 1 with
  | none => 0
  | some current =>
    let s1 := weeklyMomentumPoints df.Close
    match ilocNeg df.High_52W 2, ilocNeg df.High_4W 2, ilocNeg df.High_2W 2,
        ilocNeg df.Vol_Ratio 1 with
    | some h52, some h4, some h2, some vr =>
        s1 + breakoutQualityPoints current h52 h4 h2 vr +
          lowTrendPoints (lastSlice df.Low 20) (lastSlice df.High 20)
    | _, _, _, _ => s1

/-- Bollinger-position tier block of `score_volatility_risk` (6 points). -/
def bbPositionPoints (bb : PF) : ℕ :=
  if bb.notna then
    if bb.gt (PF.val 80) then 6
    else if bb.gt (PF.val 60) then 4
    else if bb.gt (PF.val 50) then 2
    else 0
  else 0

/-- ATR-percent change block of `score_volatility_risk` (4 points). -/
def atrChangePoints (atr_current atr_past : PF) : ℕ :=
  if atr_current.notna && atr_past.notna then
    let atr_change := ((atr_current.sub atr_past).div atr_past).mul (PF.val 100)
    if (PF.val 10).le atr_change && atr_change.le (PF.val 20) then 4
    else if (PF.val (-5)).le atr_change && atr_change.le (PF.val 10) then 3
    else if (PF.val (-10)).le atr_change && atr_change.lt (PF.val (-5)) then 2
    else 0
  else 0

/-- Models `ScoringEngine.score_volatility_risk` (cap 10). -/
def score_volatility_risk (df : AugSeries) : ℕ :=
  match ilocNeg df.BB_Position 1 with
  | none => 0
  | some bb =>
    let s1 := bbPositionPoints bb
    match ilocNeg df.ATR_Percent 1, ilocNeg df.ATR_Percent 10 with
    | some a1, some a10 => s1 + atrChangePoints a1 a10
    | _, _ => s1

/-- Tier block of `score_ichimoku` (5 points). -/
def ichimokuPoints (current tenkan kijun : PF) : ℕ :=
  if tenkan.notna && kijun.notna then
    if current.gt kijun && tenkan.gt kijun then
      let distance := ((current.sub kijun).div kijun).mul (PF.val 100)
      if distance.gt (PF.val 10) then 5
      else if distance.gt (PF.val 5) then 4
      else 2
    else 0
  else 0

/-- Models `ScoringEngine.score_ichimoku` (cap 5): 9/26-day SMAs of close as proxies. -/
def score_ichimoku (df : AugSeries) : ℕ :=
  match ilocNeg (rollingMean 9 df.Close) 1, ilocNeg (rollingMean 26 df.Close) 1,
      ilocNeg df.Close 1 with
  | some tenkan, some kijun, some current => ichimokuPoints current tenkan kijun
  | _, _, _ => 0

/-- The per-category breakdown stored in `self.scores`. -/
structure CategoryScores where
  trend_alignment : ℕ
  momentum_strength : ℕ
  volume_liquidity : ℕ
  price_action_breakouts : ℕ
  volatility_risk : ℕ
  ichimoku_cloud : ℕ
deriving DecidableEq

/-- The dictionary returned by `ScoringEngine.calculate_total_score`. -/
structure ScoreResult where
  total_score : ℕ
  classification : String
  color : String
  category_scores : CategoryScores
deriving DecidableEq

/-- The classification ladder at the end of `calculate_total_score`:
label and colour from the total. -/
def classifyTotal (total : ℕ) : String × String :=
  if total ≥ 100 then ("Exceptional", "#047857")
  else if total ≥ 85 then ("Very High", "#065f46")
  else if total ≥ 70 then ("High", "#059669")
  else if total ≥ 55 then ("Medium", "#d97706")
  else if total ≥ 40 then ("Low", "#dc2626")
  else ("Weak", "#991b1b")

/-- Models `ScoringEngine.calculate_total_score` (main.py lines 642–679). -/
def calculate_total_score (df : AugSeries) : ScoreResult :=
  let total := score_trend_alignment df + score_momentum_strength df +
    score_volume_liquidity df + score_price_action_breakouts df +
    score_volatility_risk df + score_ichimoku df
  let c := classifyTotal total
  { total_score := total
    classification := c.1
    color := c.2
    category_scores :=
      { trend_alignment := score_trend_alignment df
        momentum_strength := score_momentum_strength df
        volume_liquidity := score_volume_liquidity df
        price_action_breakouts := score_price_action_breakouts df
        volatility_risk := score_volatility_risk df
        ichimoku_cloud := score_ichimoku df } }

/-!  ## Category caps  -/

theorem pricePositionPoints_le (c e s5 s2 : PF) : pricePositionPoints c e s5 s2 ≤ 12 := by
  simp only [pricePositionPoints]; split_ifs <;> omega

theorem maSlopePoints_le (a b c : PF) : maSlopePoints a b c ≤ 8 := by
  simp only [maSlopePoints]; split_ifs <;> omega

theorem maDivergencePoints_le (a b c : PF) : maDivergencePoints a b c ≤ 5 := by
  simp only [maDivergencePoints]; split_ifs <;> omega

theorem score_trend_alignment_le (df : AugSeries) : score_trend_alignment df ≤ 25 := by
  simp only [score_trend_alignment]
  split <;> [skip; omega]
  split <;>
    first
    | exact le_trans (pricePositionPoints_le _ _ _ _) (by omega)
    | exact le_trans (Nat.add_le_add (Nat.add_le_add (pricePositionPoints_le _ _ _ _)
        (maSlopePoints_le _ _ _)) (maDivergencePoints_le _ _ _)) (by omega)

theorem adxPoints_le (x : PF) : adxPoints x ≤ 10 := by
  simp only [adxPoints]; split_ifs <;> omega

theorem diSpreadPoints_le (x : PF) (r : Bool) : diSpreadPoints x r ≤ 5 := by
  simp only [diSpreadPoints]; split_ifs <;> omega

theorem rsiPoints_le (x : PF) : rsiPoints x ≤ 8 := by
  simp only [rsiPoints]; split_ifs <;> omega

theorem rocPoints_le (x : PF) : rocPoints x ≤ 4 := by
  simp only [rocPoints]; split_ifs <;> omega

theorem macdPoints_le (a b c d : PF) : macdPoints a b c d ≤ 8 := by
  simp only [macdPoints]; split_ifs <;> omega

theorem score_momentum_strength_le (df : AugSeries) : score_momentum_strength df ≤ 35 := by
  simp only [score_momentum_strength]
  repeat' split
  all_goals
    first
    | omega
    | exact le_trans (adxPoints_le _) (by omega)
    | exact le_trans (Nat.add_le_add (adxPoints_le _) (diSpreadPoints_le _ _)) (by omega)
    | exact le_trans (Nat.add_le_add (Nat.add_le_add (adxPoints_le _)
        (diSpreadPoints_le _ _)) (rsiPoints_le _)) (by omega)
    | exact le_trans (Nat.add_le_add (Nat.add_le_add (Nat.add_le_add (adxPoints_le _)
        (diSpreadPoints_le _ _)) (rsiPoints_le _)) (rocPoints_le _)) (by omega)
    | exact le_trans (Nat.add_le_add (Nat.add_le_add (Nat.add_le_add (Nat.add_le_add
        (adxPoints_le _) (diSpreadPoints_le _ _)) (rsiPoints_le _)) (rocPoints_le _))
        (macdPoints_le _ _ _ _)) (by omega)

theorem volSurgePoints_le (x : PF) : volSurgePoints x ≤ 8 := by
  simp only [volSurgePoints]; split_ifs <;> omega

theorem obvPoints_le (a b c : PF) : obvPoints a b c ≤ 6 := by
  simp only [obvPoints]; split_ifs <;> omega

theorem volumePriceConfirmPoints_le (v c : List PF) : volumePriceConfirmPoints v c ≤ 6 := by
  simp only [volumePriceConfirmPoints]; split_ifs <;> omega

theorem score_volume_liquidity_le (df : AugSeries) : score_volume_liquidity df ≤ 20 := by
  simp only [score_volume_liquidity]
  repeat' split
  all_goals
    first
    | omega
    | exact le_trans (volSurgePoints_le _) (by omega)
    | exact le_trans (Nat.add_le_add (Nat.add_le_add (volSurgePoints_le _)
        (obvPoints_le _ _ _)) (volumePriceConfirmPoints_le _ _)) (by omega)

theorem weeklyMomentumPoints_le (c : List PF) : weeklyMomentumPoints c ≤ 10 := by
  simp only [weeklyMomentumPoints]; split_ifs <;> omega

theorem breakoutQualityPoints_le (a b c d e : PF) : breakoutQualityPoints a b c d e ≤ 8 := by
  simp only [breakoutQualityPoints]; split_ifs <;> omega

theorem lowTrendPoints_le (a b : List PF) : lowTrendPoints a b ≤ 7 := by
  simp only [lowTrendPoints]; split_ifs <;> omega

set_option maxHeartbeats 2000000 in
theorem score_price_action_breakouts_le (df : AugSeries) :
    score_price_action_breakouts df ≤ 25 := by
  simp only [score_price_action_breakouts]
  split
  · omega
  · split
    · exact le_trans (Nat.add_le_add (Nat.add_le_add (weeklyMomentumPoints_le _)
        (breakoutQualityPoints_le _ _ _ _ _)) (lowTrendPoints_le _ _)) (by omega)
    · exact le_trans (weeklyMomentumPoints_le _) (by omega)

theorem bbPositionPoints_le (x : PF) : bbPositionPoints x ≤ 6 := by
  simp only [bbPositionPoints]; split_ifs <;> omega

theorem atrChangePoints_le (a b : PF) : atrChangePoints a b ≤ 4 := by
  simp only [atrChangePoints]; split_ifs <;> omega

theorem score_volatility_risk_le (df : AugSeries) : score_volatility_risk df ≤ 10 := by
  simp only [score_volatility_risk]
  repeat' split
  all_goals
    first
    | omega
    | exact le_trans (bbPositionPoints_le _) (by omega)
    | exact le_trans (Nat.add_le_add (bbPositionPoints_le _) (atrChangePoints_le _ _))
        (by omega)

theorem ichimokuPoints_le (a b c : PF) : ichimokuPoints a b c ≤ 5 := by
  simp only [ichimokuPoints]; split_ifs <;> omega

theorem score_ichimoku_le (df : AugSeries) : score_ichimoku df ≤ 5 := by
  simp only [score_ichimoku]
  split
  · exact ichimokuPoints_le _ _ _
  · omega

/-- C1: for every input AugmentedSeries, each of the six category scores lies
within `[0, cap]` for its category (caps 25, 35, 20, 25, 10, 5 — the lower
bound 0 holds because the scores are ℕ-valued sums of non-negative points),
and the `total_score` in the ScoreResult equals the exact sum of the six
category scores, hence lies in `[0, 120]`. -/
theorem c1_category_bounds_and_total_sum (df : AugSeries) :
    score_trend_alignment df ≤ 25 ∧
    score_momentum_strength df ≤ 35 ∧
    score_volume_liquidity df ≤ 20 ∧
    score_price_action_breakouts df ≤ 25 ∧
    score_volatility_risk df ≤ 10 ∧
    score_ichimoku df ≤ 5 ∧
    (calculate_total_score df).total_score =
      score_trend_alignment df + score_momentum_strength df +
      score_volume_liquidity df + score_price_action_breakouts df +
      score_volatility_risk df + score_ichimoku df ∧
    (calculate_total_score df).category_scores =
      { trend_alignment := score_trend_alignment df
        momentum_strength := score_momentum_strength df
        volume_liquidity := score_volume_liquidity df
        price_action_breakouts := score_price_action_breakouts df
        volatility_risk := score_volatility_risk df
        ichimoku_cloud := score_ichimoku df } ∧
    (calculate_total_score df).total_score ≤ 120 := by
  refine ⟨score_trend_alignment_le df, score_momentum_strength_le df,
    score_volume_liquidity_le df, score_price_action_breakouts_le df,
    score_volatility_risk_le df, score_ichimoku_le df, rfl, rfl, ?_⟩
  have h1 := score_trend_alignment_le df
  have h2 := score_momentum_strength_le df
  have h3 := score_volume_liquidity_le df
  have h4 := score_price_action_breakouts_le df
  have h5 := score_volatility_risk_le df
  have h6 := score_ichimoku_le df
  show score_trend_alignment df + score_momentum_strength df +
      score_volume_liquidity df + score_price_action_breakouts df +
      score_volatility_risk df + score_ichimoku df ≤ 120
  omega

/-- C6: the classification ladder on the total score: `≥100` ⇒ "Exceptional",
`[85,100)` ⇒ "Very High", `[70,85)` ⇒ "High", `[55,70)` ⇒ "Medium",
`[40,55)` ⇒ "Low", `<40` ⇒ "Weak"; tier boundaries are inclusive on the
lower bound, so a total of exactly 100 classifies as "Exceptional". -/
theorem c6_classification_tiers (s : ℕ) :
    (100 ≤ s → (classifyTotal s).1 = "Exceptional") ∧
    (85 ≤ s → s < 100 → (classifyTotal s).1 = "Very High") ∧
    (70 ≤ s → s < 85 → (classifyTotal s).1 = "High") ∧
    (55 ≤ s → s < 70 → (classifyTotal s).1 = "Medium") ∧
    (40 ≤ s → s < 55 → (classifyTotal s).1 = "Low") ∧
    (s < 40 → (classifyTotal s).1 = "Weak") := by
  unfold classifyTotal
  refine ⟨?_, ?_, ?_, ?_, ?_, ?_⟩ <;> intros <;> split_ifs <;> first | rfl | omega

/-- Witness for C6 at the tier boundaries, including the boundary 100. -/
theorem c6_classification_tiers_witness :
    (classifyTotal 100).1 = "Exceptional" ∧ (classifyTotal 85).1 = "Very High" ∧
    (classifyTotal 70).1 = "High" ∧ (classifyTotal 55).1 = "Medium" ∧
    (classifyTotal 40).1 = "Low" ∧ (classifyTotal 39).1 = "Weak" :=
  ⟨(c6_classification_tiers 100).1 (by decide),
   (c6_classification_tiers 85).2.1 (by decide) (by decide),
   (c6_classification_tiers 70).2.2.1 (by decide) (by decide),
   (c6_classification_tiers 55).2.2.2.1 (by decide) (by decide),
   (c6_classification_tiers 40).2.2.2.2.1 (by decide) (by decide),
   (c6_classification_tiers 39).2.2.2.2.2 (by decide)⟩

/-!  ## Length and access lemmas for the column combinators  -/

theorem mapF_length (f : PF → PF) (xs : List PF) : (mapF f xs).length = xs.length :=
  buildSeries_length _ _

theorem map2F_length (f : PF → PF → PF) (xs ys : List PF) :
    (map2F f xs ys).length = xs.length :=
  buildSeries_length _ _

theorem diffF_length (k : ℕ) (xs : List PF) : (diffF k xs).length = xs.length :=
  buildSeries_length _ _

theorem shiftF_length (k : ℕ) (xs : List PF) : (shiftF k xs).length = xs.length :=
  buildSeries_length _ _

theorem rollingMean_length (w : ℕ) (xs : List PF) :
    (rollingMean w xs).length = xs.length :=
  buildSeries_length _ _

theorem rollingMax_length (w : ℕ) (xs : List PF) :
    (rollingMax w xs).length = xs.length :=
  buildSeries_length _ _

theorem rollingStd_length (w : ℕ) (xs : List PF) :
    (rollingStd w xs).length = xs.length :=
  buildSeries_length _ _

theorem ewmAux_length (a : ℚ) (prev : PF) (xs : List PF) :
    (ewmAux a prev xs).length = xs.length := by
  induction xs generalizing prev with
  | nil => rfl
  | cons x rest ih => simp [ewmAux, ih]

theorem ewmMean_length (span : ℕ) (xs : List PF) : (ewmMean span xs).length = xs.length :=
  ewmAux_length _ _ _

theorem cumsumAux_length (acc : PF) (xs : List PF) :
    (cumsumAux acc xs).length = xs.length := by
  induction xs generalizing acc with
  | nil => rfl
  | cons x rest ih => unfold cumsumAux; split <;> simp [ih]

theorem cumsumF_length (xs : List PF) : (cumsumF xs).length = xs.length :=
  cumsumAux_length _ _

theorem mapF_getD (f : PF → PF) (xs : List PF) (i : ℕ) (h : i < xs.length) :
    (mapF f xs).getD i PF.nan = f (xs.getD i PF.nan) :=
  buildSeries_getD _ _ _ _ h

theorem map2F_getD (f : PF → PF → PF) (xs ys : List PF) (i : ℕ) (h : i < xs.length) :
    (map2F f xs ys).getD i PF.nan = f (xs.getD i PF.nan) (ys.getD i PF.nan) :=
  buildSeries_getD _ _ _ _ h

theorem rsiGain_length (p : ℕ) (close : List PF) :
    (rsiGain p close).length = close.length := by
  simp [rsiGain, rollingMean_length, buildSeries_length, diffF_length]

theorem rsiLoss_length (p : ℕ) (close : List PF) :
    (rsiLoss p close).length = close.length := by
  simp [rsiLoss, rollingMean_length, mapF_length, buildSeries_length, diffF_length]

/-!  ## C10: the price-vs-MA sub-rule on undefined moving averages  -/

/-- C10: the price-vs-MA ordering sub-rule of Trend Alignment (12 points)
awards 0 whenever any of EMA20, SMA50, SMA200 is undefined at the last index;
in particular, through the indicator pipeline, every series of fewer than 200
bars leaves SMA200 undefined at the last index, so the sub-rule contributes 0
regardless of how the close compares to SMA50. -/
theorem c10_price_position_undefined_ma :
    (∀ current ema20 sma50 sma200 : PF,
      (ema20.notna && sma50.notna && sma200.notna) = false →
      pricePositionPoints current ema20 sma50 sma200 = 0) ∧
    (∀ bars : List Bar, bars ≠ [] → bars.length < 200 →
      pricePositionPoints
        ((calculate_all_indicators bars).Close.getD (bars.length - 1) PF.nan)
        ((calculate_all_indicators bars).EMA_20.getD (bars.length - 1) PF.nan)
        ((calculate_all_indicators bars).SMA_50.getD (bars.length - 1) PF.nan)
        ((calculate_all_indicators bars).SMA_200.getD (bars.length - 1) PF.nan) = 0) := by
  constructor
  · intro current ema20 sma50 sma200 h
    simp only [pricePositionPoints, h]
    rfl
  · intro bars hne hlen
    have hpos : 0 < bars.length := List.length_pos.mpr hne
    have hsma : (calculate_all_indicators bars).SMA_200.getD (bars.length - 1) PF.nan
        = PF.nan := by
      show (calculate_sma (bars.map fun b => PF.val b.close) 200).getD
        (bars.length - 1) PF.nan = PF.nan
      unfold calculate_sma rollingMean
      rw [buildSeries_getD]
      · have : bars.length - 1 + 1 < 200 := by omega
        simp [this]
      · simp [List.length_map]; omega
    rw [hsma]
    simp [pricePositionPoints, PF.notna]

/-- A short valid one-bar series used by witnesses. -/
def oneBar : Bar :=
  { date := 0, openPrice := 1, high := 1, low := 1, close := 1, volume := 1 }

/-- Witness for C10: a one-bar series (and a directly-undefined SMA200). -/
theorem c10_price_position_undefined_ma_witness :
    pricePositionPoints (PF.val 10) (PF.val 1) (PF.val 1) PF.nan = 0 ∧
    pricePositionPoints
      ((calculate_all_indicators [oneBar]).Close.getD 0 PF.nan)
      ((calculate_all_indicators [oneBar]).EMA_20.getD 0 PF.nan)
      ((calculate_all_indicators [oneBar]).SMA_50.getD 0 PF.nan)
      ((calculate_all_indicators [oneBar]).SMA_200.getD 0 PF.nan) = 0 :=
  ⟨c10_price_position_undefined_ma.1 (PF.val 10) (PF.val 1) (PF.val 1) PF.nan (by decide),
   c10_price_position_undefined_ma.2 [oneBar] (by decide) (by decide)⟩

/-!  ## C8: breakout-proximity tiers  -/

/-- C8: the breakout-proximity sub-rule of Price Action & Breakouts evaluates
its tiers top-to-bottom, first match wins: 8 points when the latest close is
at least `0.995 ×` the prior-bar 52-week high and the latest volume ratio
exceeds 150; otherwise 7 points on the prior-bar 4-week high test; otherwise
5 points on the prior-bar 2-week high test; otherwise 0.  The last conjunct
records that `score_price_action_breakouts` feeds the sub-rule exactly the
second-to-last rolling highs and the latest close and volume ratio. -/
theorem c8_breakout_proximity_tiers :
    (∀ current h52 h4 h2 vr : PF,
      (h52.notna && current.ge (h52.mul (PF.val (995/1000))) && vr.gt (PF.val 150)) = true →
      breakoutQualityPoints current h52 h4 h2 vr = 8) ∧
    (∀ current h52 h4 h2 vr : PF,
      (h52.notna && current.ge (h52.mul (PF.val (995/1000))) && vr.gt (PF.val 150)) = false →
      (h4.notna && current.ge (h4.mul (PF.val (995/1000)))) = true →
      breakoutQualityPoints current h52 h4 h2 vr = 7) ∧
    (∀ current h52 h4 h2 vr : PF,
      (h52.notna && current.ge (h52.mul (PF.val (995/1000))) && vr.gt (PF.val 150)) = false →
      (h4.notna && current.ge (h4.mul (PF.val (995/1000)))) = false →
      (h2.notna && current.ge (h2.mul (PF.val (995/1000)))) = true →
      breakoutQualityPoints current h52 h4 h2 vr = 5) ∧
    (∀ current h52 h4 h2 vr : PF,
      (h52.notna && current.ge (h52.mul (PF.val (995/1000))) && vr.gt (PF.val 150)) = false →
      (h4.notna && current.ge (h4.mul (PF.val (995/1000)))) = false →
      (h2.notna && current.ge (h2.mul (PF.val (995/1000)))) = false →
      breakoutQualityPoints current h52 h4 h2 vr = 0) ∧
    (∀ (df : AugSeries) (current h52 h4 h2 vr : PF),
      ilocNeg df.Close 1 = some current →
      ilocNeg df.High_52W 2 = some h52 →
      ilocNeg df.High_4W 2 = some h4 →
      ilocNeg df.High_2W 2 = some h2 →
      ilocNeg df.Vol_Ratio 1 = some vr →
      score_price_action_breakouts df =
        weeklyMomentumPoints df.Close + breakoutQualityPoints current h52 h4 h2 vr +
          lowTrendPoints (lastSlice df.Low 20) (lastSlice df.High 20)) := by
  refine ⟨?_, ?_, ?_, ?_, ?_⟩
  · intro current h52 h4 h2 vr h1
    simp only [breakoutQualityPoints, h1]
    rfl
  · intro current h52 h4 h2 vr h1 h2'
    simp only [breakoutQualityPoints, h1, h2']
    rfl
  · intro current h52 h4 h2 vr h1 h2' h3
    simp only [breakoutQualityPoints, h1, h2', h3]
    rfl
  · intro current h52 h4 h2 vr h1 h2' h3
    simp only [breakoutQualityPoints, h1, h2', h3]
    rfl
  · intro df current h52 h4 h2 vr e1 e2 e3 e4 e5
    simp only [score_price_action_breakouts, e1, e2, e3, e4, e5]

/-- A tiny two-row AugmentedSeries used to exercise the C8 decomposition. -/
def sampleDF : AugSeries :=
  { Date := [0, 1]
    Open := [PF.val 1, PF.val 2]
    High := [PF.val 1, PF.val 2]
    Low := [PF.val 1, PF.val 2]
    Close := [PF.val 1, PF.val 2]
    Volume := [PF.val 1, PF.val 2]
    EMA_20 := [PF.val 1, PF.val 2]
    SMA_50 := [PF.val 1, PF.val 2]
    SMA_200 := [PF.val 1, PF.val 2]
    EMA_20_slope := [PF.val 1, PF.val 2]
    SMA_50_slope := [PF.val 1, PF.val 2]
    SMA_200_slope := [PF.val 1, PF.val 2]
    RSI := [PF.val 1, PF.val 2]
    ROC := [PF.val 1, PF.val 2]
    MACD := [PF.val 1, PF.val 2]
    MACD_Signal := [PF.val 1, PF.val 2]
    MACD_Hist := [PF.val 1, PF.val 2]
    Hist_Momentum := [PF.val 1, PF.val 2]
    ADX := [PF.val 1, PF.val 2]
    Plus_DI := [PF.val 1, PF.val 2]
    Minus_DI := [PF.val 1, PF.val 2]
    DI_Spread := [PF.val 1, PF.val 2]
    ADX_Rising := [false, true]
    Vol_SMA_20 := [PF.val 1, PF.val 2]
    Vol_SMA_50 := [PF.val 1, PF.val 2]
    Vol_Ratio := [PF.val 1, PF.val 2]
    OBV := [PF.val 1, PF.val 2]
    OBV_EMA := [PF.val 1, PF.val 2]
    BB_Upper := [PF.val 1, PF.val 2]
    BB_Middle := [PF.val 1, PF.val 2]
    BB_Lower := [PF.val 1, PF.val 2]
    BB_Position := [PF.val 1, PF.val 2]
    ATR := [PF.val 1, PF.val 2]
    ATR_Percent := [PF.val 1, PF.val 2]
    High_52W := [PF.val 1, PF.val 2]
    High_4W := [PF.val 1, PF.val 2]
    High_2W := [PF.val 1, PF.val 2] }

/-- Witness for C8: one concrete input per tier, plus the decomposition on a
two-row series. -/
theorem c8_breakout_proximity_tiers_witness :
    breakoutQualityPoints (PF.val 100) (PF.val 100) PF.nan PF.nan (PF.val 200) = 8 ∧
    breakoutQualityPoints (PF.val 100) (PF.val 200) (PF.val 100) PF.nan (PF.val 100) = 7 ∧
    breakoutQualityPoints (PF.val 100) (PF.val 200) (PF.val 200) (PF.val 100) (PF.val 100) = 5 ∧
    breakoutQualityPoints (PF.val 1) (PF.val 200) (PF.val 200) (PF.val 200) (PF.val 100) = 0 ∧
    score_price_action_breakouts sampleDF =
      weeklyMomentumPoints sampleDF.Close +
        breakoutQualityPoints (PF.val 2) (PF.val 1) (PF.val 1) (PF.val 1) (PF.val 2) +
        lowTrendPoints (lastSlice sampleDF.Low 20) (lastSlice sampleDF.High 20) :=
  ⟨c8_breakout_proximity_tiers.1 _ _ _ _ _ (by with_unfolding_all decide),
   c8_breakout_proximity_tiers.2.1 _ _ _ _ _ (by with_unfolding_all decide)
     (by with_unfolding_all decide),
   c8_breakout_proximity_tiers.2.2.1 _ _ _ _ _ (by with_unfolding_all decide)
     (by with_unfolding_all decide) (by with_unfolding_all decide),
   c8_breakout_proximity_tiers.2.2.2.1 _ _ _ _ _ (by with_unfolding_all decide)
     (by with_unfolding_all decide) (by with_unfolding_all decide),
   c8_breakout_proximity_tiers.2.2.2.2 sampleDF _ _ _ _ _ (by with_unfolding_all decide)
     (by with_unfolding_all decide) (by with_unfolding_all decide)
     (by with_unfolding_all decide) (by with_unfolding_all decide)⟩

/-!  ## C3: RSI when the trailing average loss is zero  -/

/-- C3 (amended): at every index where the 14-sample average loss exists and
equals zero, `100 - 100/(1 + gain/loss)` evaluates, with IEEE semantics, to
exactly 100 when the average gain is positive (RS = +inf saturates the
formula) and to NaN — an undefined value, not an exception — when the
average gain is also zero (RS = 0/0). -/
theorem c3_rsi_zero_loss (close : List PF) (i : ℕ) (g : ℚ)
    (hi : i < close.length)
    (hgain : (rsiGain 14 close).getD i PF.nan = PF.val g)
    (hloss : (rsiLoss 14 close).getD i PF.nan = PF.val 0)
    (hg : 0 ≤ g) :
    (calculate_rsi 14 close).getD i PF.nan =
      if 0 < g then PF.val 100 else PF.nan := by
  have hlen : (map2F PF.div (rsiGain 14 close) (rsiLoss 14 close)).length = close.length := by
    rw [map2F_length, rsiGain_length]
  have hlen2 : i < (map2F PF.div (rsiGain 14 close) (rsiLoss 14 close)).length := by
    omega
  have hlen3 : i < (rsiGain 14 close).length := by rw [rsiGain_length]; omega
  unfold calculate_rsi
  rw [mapF_getD _ _ _ hlen2, map2F_getD _ _ _ _ hlen3, hgain, hloss]
  rcases eq_or_lt_of_le hg with h | h
  · have hge : g = 0 := h.symm
    subst hge
    simp [PF.div, PF.add, PF.sub]
  · have hne : g ≠ 0 := ne_of_gt h
    simp only [PF.div, if_pos rfl, if_neg hne, if_pos h]
    simp [PF.add, PF.div, PF.sub, h]

/-- Counterexample to C3 as stated: on a constant 15-bar close series the
trailing average loss at the last index is zero, yet RSI is NaN (undefined),
not 100: the claim's "defined value equal to 100" fails. -/
theorem c3_rsi_zero_loss_counterexample :
    (rsiLoss 14 (List.replicate 15 (PF.val 1))).getD 14 PF.nan = PF.val 0 ∧
    (rsiGain 14 (List.replicate 15 (PF.val 1))).getD 14 PF.nan = PF.val 0 ∧
    (calculate_rsi 14 (List.replicate 15 (PF.val 1))).getD 14 PF.nan = PF.nan ∧
    (calculate_rsi 14 (List.replicate 15 (PF.val 1))).getD 14 PF.nan ≠ PF.val 100 := by
  refine ⟨?_, ?_, ?_, ?_⟩ <;> with_unfolding_all decide

/-- Witness for C3 (amended) on a strictly rising 15-bar close series:
average loss 0, average gain 1, RSI exactly 100. -/
theorem c3_rsi_zero_loss_witness :
    (calculate_rsi 14 ((List.range 15).map fun i => PF.val ((i : ℚ) + 1))).getD 14 PF.nan =
      if (0 : ℚ) < 1 then PF.val 100 else PF.nan :=
  c3_rsi_zero_loss ((List.range 15).map fun i => PF.val ((i : ℚ) + 1)) 14 1
    (by with_unfolding_all decide) (by with_unfolding_all decide)
    (by with_unfolding_all decide) (by with_unfolding_all decide)

/-!  ## C7: the EMA recursion  -/

theorem ewmStep_nan_prev (a : ℚ) (x : PF) : ewmStep a PF.nan x = x := by
  cases x <;> rfl

theorem ewmStep_real (a : ℚ) (prev x : PF) (hp : prev.isReal = true)
    (hx : x.isReal = true) : (ewmStep a prev x).isReal = true := by
  cases prev <;> cases x <;> simp_all [ewmStep, PF.isReal, PF.isna, PF.mul, PF.add]

theorem ewmStep_recurrence (a : ℚ) (prev x : PF) (hp : prev.isReal = true)
    (hx : x.isReal = true) :
    ewmStep a prev x = ((PF.val a).mul x).add ((PF.val (1 - a)).mul prev) := by
  cases prev <;> cases x <;> simp_all [ewmStep, PF.isReal, PF.isna]

theorem ewmAux_recurrence (a : ℚ) (xs : List PF)
    (hxs : ∀ x ∈ xs, x.isReal = true) :
    ∀ (prev : PF), (prev = PF.nan ∨ prev.isReal = true) →
      ∀ i, 0 < i → i < xs.length →
      (ewmAux a prev xs).getD i PF.nan =
        ((PF.val a).mul (xs.getD i PF.nan)).add
          ((PF.val (1 - a)).mul ((ewmAux a prev xs).getD (i - 1) PF.nan)) := by
  induction xs with
  | nil => intro prev _ i _ hi; simp at hi
  | cons x rest ih =>
    intro prev hprev i hi hilen
    have hx : x.isReal = true := hxs x (List.mem_cons_self x rest)
    have hcur : (ewmStep a prev x).isReal = true := by
      rcases hprev with h | h
      · rw [h, ewmStep_nan_prev]; exact hx
      · exact ewmStep_real a prev x h hx
    obtain ⟨j, rfl⟩ : ∃ j, i = j + 1 := ⟨i - 1, by omega⟩
    simp only [ewmAux, List.getD_cons_succ, Nat.add_sub_cancel]
    cases j with
    | zero =>
      cases rest with
      | nil => simp at hilen
      | cons y rest' =>
        have hy : y.isReal = true := hxs y (by simp)
        simp only [ewmAux, List.getD_cons_zero]
        exact ewmStep_recurrence a (ewmStep a prev x) y hcur hy
    | succ k =>
      have := ih (fun z hz => hxs z (List.mem_cons_of_mem x hz))
        (ewmStep a prev x) (Or.inr hcur) (k + 1) (by omega) (by simp at hilen; omega)
      simpa using this

/-- C7: for every period `p ≥ 1` and every (all-real, e.g. raw close) series,
`ewm(span=p, adjust=False).mean()` is defined from index 0 with
`EMA[0] = close[0]` (seeded at the first value), and for every `i > 0`,
`EMA[i] = α·close[i] + (1-α)·EMA[i-1]` with `α = 2/(p+1)`. -/
theorem c7_ema_seed_and_recurrence (p : ℕ) (xs : List PF)
    (hp : 1 ≤ p) (hxs : ∀ x ∈ xs, x.isReal = true) (hne : xs ≠ []) :
    (calculate_ema xs p).getD 0 PF.nan = xs.getD 0 PF.nan ∧
    (∀ i, 0 < i → i < xs.length →
      (calculate_ema xs p).getD i PF.nan =
        ((PF.val (2 / ((p : ℚ) + 1))).mul (xs.getD i PF.nan)).add
          ((PF.val (1 - 2 / ((p : ℚ) + 1))).mul
            ((calculate_ema xs p).getD (i - 1) PF.nan))) := by
  constructor
  · cases xs with
    | nil => exact absurd rfl hne
    | cons x rest =>
      show (ewmAux _ PF.nan (x :: rest)).getD 0 PF.nan = _
      simp [ewmAux, ewmStep_nan_prev]
  · intro i hi hilen
    exact ewmAux_recurrence (2 / ((p : ℚ) + 1)) xs hxs PF.nan (Or.inl rfl) i hi hilen

/-- Witness for C7: period 3 on the two-element series `[1, 2]`, seed and one
recurrence step. -/
theorem c7_ema_seed_and_recurrence_witness :
    (calculate_ema [PF.val 1, PF.val 2] 3).getD 0 PF.nan =
      ([PF.val 1, PF.val 2] : List PF).getD 0 PF.nan ∧
    (calculate_ema [PF.val 1, PF.val 2] 3).getD 1 PF.nan =
      ((PF.val (2 / ((3 : ℕ) + 1 : ℚ))).mul (([PF.val 1, PF.val 2] : List PF).getD 1 PF.nan)).add
        ((PF.val (1 - 2 / ((3 : ℕ) + 1 : ℚ))).mul
          ((calculate_ema [PF.val 1, PF.val 2] 3).getD 0 PF.nan)) :=
  ⟨(c7_ema_seed_and_recurrence 3 [PF.val 1, PF.val 2] (by decide)
      (by intro x hx; simp at hx; rcases hx with h | h <;> simp [h, PF.isReal])
      (by decide)).1,
   (c7_ema_seed_and_recurrence 3 [PF.val 1, PF.val 2] (by decide)
      (by intro x hx; simp at hx; rcases hx with h | h <;> simp [h, PF.isReal])
      (by decide)).2 1 (by decide) (by decide)⟩

/-!  ## C4: the indicator engine never signals an invalid-input error  -/

/-- The empty augmented frame. -/
def emptyAug : AugSeries :=
  { Date := [], Open := [], High := [], Low := [], Close := [], Volume := []
    EMA_20 := [], SMA_50 := [], SMA_200 := [], EMA_20_slope := []
    SMA_50_slope := [], SMA_200_slope := [], RSI := [], ROC := [], MACD := []
    MACD_Signal := [], MACD_Hist := [], Hist_Momentum := [], ADX := []
    Plus_DI := [], Minus_DI := [], DI_Spread := [], ADX_Rising := []
    Vol_SMA_20 := [], Vol_SMA_50 := [], Vol_Ratio := [], OBV := []
    OBV_EMA := [], BB_Upper := [], BB_Middle := [], BB_Lower := []
    BB_Position := [], ATR := [], ATR_Percent := [], High_52W := []
    High_4W := [], High_2W := [] }

/-- A bar violating the §3 invariants: negative volume and `high < low`. -/
def badBar : Bar :=
  { date := 0, openPrice := 3, high := 1, low := 2, close := 3, volume := -5 }

/-- Counterexample to C4 as stated: `calculate_all_indicators` contains no
input validation whatsoever — on the empty PriceSeries it returns the empty
AugmentedSeries normally instead of signalling an invalid-input error, and a
series violating the §3 invariants (here: negative volume and inverted OHLC)
is processed just like any other input. -/
theorem c4_engine_error_counterexample :
    calculate_all_indicators [] = emptyAug ∧
    validSeries [badBar] = false ∧
    (calculate_all_indicators [badBar]).Close = [PF.val 3] := by
  refine ⟨?_, ?_, ?_⟩ <;> with_unfolding_all decide

/-- C4 (amended): the Indicator Engine does not fail on short input — it
returns an AugmentedSeries with NaN entries wherever lookback is insufficient
— but it also performs no §3 validation and never signals an invalid-input
error: it is a total function producing, for *every* input series (empty,
short, or invariant-violating alike), an AugmentedSeries whose every column
is aligned with the input, one entry per bar. -/
theorem c4_engine_total_and_aligned (bars : List Bar) :
    (calculate_all_indicators bars).Date.length = bars.length ∧
    (calculate_all_indicators bars).Open.length = bars.length ∧
    (calculate_all_indicators bars).High.length = bars.length ∧
    (calculate_all_indicators bars).Low.length = bars.length ∧
    (calculate_all_indicators bars).Close.length = bars.length ∧
    (calculate_all_indicators bars).Volume.length = bars.length ∧
    (calculate_all_indicators bars).EMA_20.length = bars.length ∧
    (calculate_all_indicators bars).SMA_50.length = bars.length ∧
    (calculate_all_indicators bars).SMA_200.length = bars.length ∧
    (calculate_all_indicators bars).EMA_20_slope.length = bars.length ∧
    (calculate_all_indicators bars).SMA_50_slope.length = bars.length ∧
    (calculate_all_indicators bars).SMA_200_slope.length = bars.length ∧
    (calculate_all_indicators bars).RSI.length = bars.length ∧
    (calculate_all_indicators bars).ROC.length = bars.length ∧
    (calculate_all_indicators bars).MACD.length = bars.length ∧
    (calculate_all_indicators bars).MACD_Signal.length = bars.length ∧
    (calculate_all_indicators bars).MACD_Hist.length = bars.length ∧
    (calculate_all_indicators bars).Hist_Momentum.length = bars.length ∧
    (calculate_all_indicators bars).ADX.length = bars.length ∧
    (calculate_all_indicators bars).Plus_DI.length = bars.length ∧
    (calculate_all_indicators bars).Minus_DI.length = bars.length ∧
    (calculate_all_indicators bars).DI_Spread.length = bars.length ∧
    (calculate_all_indicators bars).ADX_Rising.length = bars.length ∧
    (calculate_all_indicators bars).Vol_SMA_20.length = bars.length ∧
    (calculate_all_indicators bars).Vol_SMA_50.length = bars.length ∧
    (calculate_all_indicators bars).Vol_Ratio.length = bars.length ∧
    (calculate_all_indicators bars).OBV.length = bars.length ∧
    (calculate_all_indicators bars).OBV_EMA.length = bars.length ∧
    (calculate_all_indicators bars).BB_Upper.length = bars.length ∧
    (calculate_all_indicators bars).BB_Middle.length = bars.length ∧
    (calculate_all_indicators bars).BB_Lower.length = bars.length ∧
    (calculate_all_indicators bars).BB_Position.length = bars.length ∧
    (calculate_all_indicators bars).ATR.length = bars.length ∧
    (calculate_all_indicators bars).ATR_Percent.length = bars.length ∧
    (calculate_all_indicators bars).High_52W.length = bars.length ∧
    (calculate_all_indicators bars).High_4W.length = bars.length ∧
    (calculate_all_indicators bars).High_2W.length = bars.length := by
  refine ⟨?_, ?_, ?_, ?_, ?_, ?_, ?_, ?_, ?_, ?_, ?_, ?_, ?_, ?_, ?_, ?_, ?_, ?_,
    ?_, ?_, ?_, ?_, ?_, ?_, ?_, ?_, ?_, ?_, ?_, ?_, ?_, ?_, ?_, ?_, ?_, ?_, ?_⟩ <;>
  simp [calculate_all_indicators, calculate_ema, calculate_sma, calculate_rsi,
    calculate_macd, calculate_adx, calculate_bollinger_bands, calculate_atr,
    calculate_obv, calculate_roc, pctChange, trueRange, fillnaF, rsiGain_length,
    mapF_length, map2F_length, diffF_length, shiftF_length, rollingMean_length,
    rollingMax_length, rollingStd_length, ewmMean_length, cumsumF_length,
    buildSeries_length, List.length_map]

/-!  ## Constant-column lemmas  -/

theorem replicate_getD (n : ℕ) (a d : PF) (i : ℕ) (h : i < n) :
    (List.replicate n a).getD i d = a := by
  rw [List.getD_eq_getElem?_getD, List.getElem?_replicate, if_pos h]
  rfl

theorem replicate_nan_getD (n i : ℕ) : (List.replicate n PF.nan).getD i PF.nan = PF.nan := by
  rcases lt_or_le i n with h | h
  · exact replicate_getD n PF.nan PF.nan i h
  · exact List.getD_eq_default _ _ (by simpa using h)

theorem ilocNeg_replicate (n k : ℕ) (a : PF) (h1 : 1 ≤ k) (h2 : k ≤ n) :
    ilocNeg (List.replicate n a) k = some a := by
  unfold ilocNeg
  rw [if_pos (by simp [h1, h2])]
  rw [replicate_getD _ _ _ _ (by simp; omega)]

theorem ilocNeg_replicate_short (n k : ℕ) (a : PF) (h2 : n < k) :
    ilocNeg (List.replicate n a) k = none := by
  unfold ilocNeg
  rw [if_neg]
  simp
  omega

theorem ilocNegBool_replicate (n k : ℕ) (b : Bool) (h1 : 1 ≤ k) (h2 : k ≤ n) :
    ilocNegBool (List.replicate n b) k = some b := by
  unfold ilocNegBool
  rw [if_pos (by simp [h1, h2])]
  congr 1
  rw [List.getD_eq_getElem?_getD, List.getElem?_replicate, if_pos (by simp; omega)]
  rfl

theorem lastSlice_replicate (n k : ℕ) (a : PF) :
    lastSlice (List.replicate n a) k = List.replicate (n - (n - k)) a := by
  simp [lastSlice, List.drop_replicate]

theorem sliceNeg_replicate (n a b : ℕ) (x : PF) :
    sliceNeg (List.replicate n x) a b = List.replicate (min (n - b) n - (n - a)) x := by
  simp [sliceNeg, List.take_replicate, List.drop_replicate]

theorem seriesMean_allNan (m : ℕ) : seriesMean (List.replicate m PF.nan) = PF.nan := by
  unfold seriesMean
  have h : List.filter (fun x => !PF.isna x) (List.replicate m PF.nan) = [] := by
    induction m with
    | zero => rfl
    | succ k ih => simp [List.replicate_succ, List.filter, PF.isna, ih]
  simp [h]

theorem volumePriceConfirmPoints_allNan (n m : ℕ) :
    volumePriceConfirmPoints (List.replicate n PF.nan) (List.replicate m PF.nan) = 0 := by
  unfold volumePriceConfirmPoints
  rw [lastSlice_replicate, lastSlice_replicate, sliceNeg_replicate, sliceNeg_replicate,
    seriesMean_allNan, seriesMean_allNan, seriesMean_allNan, seriesMean_allNan]
  decide

theorem mem_everyKth_replicate_nan (k m : ℕ) (x : PF)
    (h : x ∈ everyKth k (List.replicate m PF.nan)) : x = PF.nan := by
  unfold everyKth at h
  rw [List.mem_filterMap] at h
  obtain ⟨i, _, hi⟩ := h
  by_cases hk : i % k = 0
  · rw [if_pos hk, replicate_nan_getD] at hi
    exact (Option.some_inj.mp hi).symm
  · rw [if_neg hk] at hi
    exact absurd hi (by simp)

theorem risesRev_allNan (l : List PF) (h : ∀ x ∈ l, x = PF.nan) : risesRev l = 0 := by
  match l with
  | [] => rfl
  | [a] => rfl
  | a :: b :: rest =>
    have ha : a = PF.nan := h a (by simp)
    have hb : b = PF.nan := h b (by simp)
    subst ha hb
    simp [risesRev, PF.gt, PF.lt]

theorem weeklyMomentumPoints_allNan (n : ℕ) :
    weeklyMomentumPoints (List.replicate n PF.nan) = 0 := by
  have h : risesRev (everyKth 5 (lastSlice (List.replicate n PF.nan) 35)).reverse = 0 := by
    apply risesRev_allNan
    intro x hx
    rw [List.mem_reverse] at hx
    rw [lastSlice_replicate] at hx
    exact mem_everyKth_replicate_nan 5 _ x hx
  simp only [weeklyMomentumPoints, h]
  decide

theorem replicate_nan_any_isna (m : ℕ) (h : 1 ≤ m) :
    (List.replicate m PF.nan).any PF.isna = true := by
  cases m with
  | zero => omega
  | succ k => simp [List.replicate_succ, PF.isna]

theorem lowTrendPoints_replicate_nan (m : ℕ) (hs : List PF) :
    lowTrendPoints (List.replicate m PF.nan) hs = 0 := by
  unfold lowTrendPoints
  cases m with
  | zero => simp
  | succ k =>
    split_ifs with h1 h2 h3
    · rfl
    · exact absurd (replicate_nan_any_isna (k + 1) (by omega)) (by simp_all)
    · exact absurd (replicate_nan_any_isna (k + 1) (by omega)) (by simp_all)
    · rfl

theorem rollingMean_replicate_nan (w n : ℕ) (hw : 0 < w) :
    rollingMean w (List.replicate n PF.nan) = List.replicate n PF.nan := by
  unfold rollingMean
  have h : ∀ i, i < n → (if i + 1 < w then PF.nan
      else
        let win := windowAt w i (List.replicate n PF.nan)
        if win.any PF.isna then PF.nan
        else (sumPF win).div (PF.val w)) = PF.nan := by
    intro i hi
    by_cases h1 : i + 1 < w
    · simp [h1]
    · have hany : (windowAt w i (List.replicate n PF.nan)).any PF.isna = true := by
        unfold windowAt
        rw [List.any_eq_true]
        refine ⟨(List.replicate n PF.nan).getD (i + 1 - w + 0) PF.nan, ?_, ?_⟩
        · exact List.mem_map_of_mem _ (by simp [List.mem_range]; omega)
        · rw [replicate_nan_getD]; rfl
      simp [h1, hany]
  calc buildSeries (List.replicate n PF.nan).length _
      = buildSeries n (fun _ => PF.nan) := by
        rw [List.length_replicate]
        exact buildSeries_congr n _ _ h
    _ = List.replicate n PF.nan := by
        unfold buildSeries
        rw [List.map_const']
        simp

/-!  ## C5: the scoring engine on undefined / structurally invalid input  -/

/-- An augmented frame of length `n` whose every indicator and price entry is
undefined (`n = 0` is the empty frame). -/
def allNanAug (n : ℕ) : AugSeries :=
  { Date := List.replicate n 0
    Open := List.replicate n PF.nan
    High := List.replicate n PF.nan
    Low := List.replicate n PF.nan
    Close := List.replicate n PF.nan
    Volume := List.replicate n PF.nan
    EMA_20 := List.replicate n PF.nan
    SMA_50 := List.replicate n PF.nan
    SMA_200 := List.replicate n PF.nan
    EMA_20_slope := List.replicate n PF.nan
    SMA_50_slope := List.replicate n PF.nan
    SMA_200_slope := List.replicate n PF.nan
    RSI := List.replicate n PF.nan
    ROC := List.replicate n PF.nan
    MACD := List.replicate n PF.nan
    MACD_Signal := List.replicate n PF.nan
    MACD_Hist := List.replicate n PF.nan
    Hist_Momentum := List.replicate n PF.nan
    ADX := List.replicate n PF.nan
    Plus_DI := List.replicate n PF.nan
    Minus_DI := List.replicate n PF.nan
    DI_Spread := List.replicate n PF.nan
    ADX_Rising := List.replicate n false
    Vol_SMA_20 := List.replicate n PF.nan
    Vol_SMA_50 := List.replicate n PF.nan
    Vol_Ratio := List.replicate n PF.nan
    OBV := List.replicate n PF.nan
    OBV_EMA := List.replicate n PF.nan
    BB_Upper := List.replicate n PF.nan
    BB_Middle := List.replicate n PF.nan
    BB_Lower := List.replicate n PF.nan
    BB_Position := List.replicate n PF.nan
    ATR := List.replicate n PF.nan
    ATR_Percent := List.replicate n PF.nan
    High_52W := List.replicate n PF.nan
    High_4W := List.replicate n PF.nan
    High_2W := List.replicate n PF.nan }

theorem trend_allNan (n : ℕ) : score_trend_alignment (allNanAug n) = 0 := by
  rcases Nat.eq_zero_or_pos n with h | h
  · subst h; decide
  · simp only [score_trend_alignment, allNanAug,
      ilocNeg_replicate n 1 PF.nan (by omega) (by omega)]
    decide

theorem momentum_allNan (n : ℕ) : score_momentum_strength (allNanAug n) = 0 := by
  rcases Nat.eq_zero_or_pos n with h | h
  · subst h; decide
  · simp only [score_momentum_strength, allNanAug,
      ilocNeg_replicate n 1 PF.nan (by omega) (by omega),
      ilocNegBool_replicate n 1 false (by omega) (by omega)]
    decide

theorem obvPoints_nan_first (x : PF) : obvPoints PF.nan PF.nan x = 0 := by
  simp [obvPoints, PF.notna]

theorem volume_allNan (n : ℕ) : score_volume_liquidity (allNanAug n) = 0 := by
  rcases Nat.eq_zero_or_pos n with h | h
  · subst h; decide
  · simp only [score_volume_liquidity, allNanAug,
      ilocNeg_replicate n 1 PF.nan (by omega) (by omega),
      volumePriceConfirmPoints_allNan, obvPoints_nan_first]
    decide

theorem price_action_allNan (n : ℕ) : score_price_action_breakouts (allNanAug n) = 0 := by
  rcases Nat.eq_zero_or_pos n with h | h
  · subst h; decide
  · rcases Nat.lt_or_ge n 2 with h2 | h2
    · have hn1 : n = 1 := by omega
      subst hn1; decide
    · simp only [score_price_action_breakouts, allNanAug,
        ilocNeg_replicate n 1 PF.nan (by omega) (by omega),
        ilocNeg_replicate n 2 PF.nan (by omega) (by omega),
        weeklyMomentumPoints_allNan, lastSlice_replicate,
        lowTrendPoints_replicate_nan]
      decide

theorem volatility_allNan (n : ℕ) : score_volatility_risk (allNanAug n) = 0 := by
  rcases Nat.eq_zero_or_pos n with h | h
  · subst h; decide
  · rcases Nat.lt_or_ge n 10 with h2 | h2
    · simp only [score_volatility_risk, allNanAug,
        ilocNeg_replicate n 1 PF.nan (by omega) (by omega),
        ilocNeg_replicate_short n 10 PF.nan h2]
      decide
    · simp only [score_volatility_risk, allNanAug,
        ilocNeg_replicate n 1 PF.nan (by omega) (by omega),
        ilocNeg_replicate n 10 PF.nan (by omega) (by omega)]
      decide

theorem ichimoku_allNan (n : ℕ) : score_ichimoku (allNanAug n) = 0 := by
  rcases Nat.eq_zero_or_pos n with h | h
  · subst h; decide
  · simp only [score_ichimoku, allNanAug, rollingMean_replicate_nan 9 n (by omega),
      rollingMean_replicate_nan 26 n (by omega),
      ilocNeg_replicate n 1 PF.nan (by omega) (by omega)]
    decide

/-- The all-zero "Weak" result. -/
def weakZeroResult : ScoreResult :=
  { total_score := 0, classification := "Weak", color := "#991b1b"
    category_scores :=
      { trend_alignment := 0, momentum_strength := 0, volume_liquidity := 0
        price_action_breakouts := 0, volatility_risk := 0, ichimoku_cloud := 0 } }

/-- Counterexample to C5 as stated: on the empty AugmentedSeries — a
structurally invalid input on which the claim says the engine fails — every
category's guarded reads hit the `except` handler and `calculate_total_score`
returns the ordinary all-zero "Weak" ScoreResult instead of failing. -/
theorem c5_scoring_failure_counterexample :
    calculate_total_score emptyAug = weakZeroResult := by
  with_unfolding_all decide

/-- C5 (amended): the Scoring Engine never raises when required indicator
values are undefined — each such sub-rule contributes 0 — and it does not
fail on structurally invalid input either: every category catches internal
errors and keeps its partially accumulated points, so an all-undefined frame
of *any* length `n` (including the empty frame, `n = 0`) yields the all-zero
"Weak" result rather than an error. -/
theorem c5_scoring_never_fails (n : ℕ) :
    calculate_total_score (allNanAug n) = weakZeroResult := by
  unfold calculate_total_score
  rw [trend_allNan, momentum_allNan, volume_allNan, price_action_allNan,
    volatility_allNan, ichimoku_allNan]
  rfl

/-!  ## Constant-valued column lemmas (flat series)  -/

theorem buildSeries_const_of (n : ℕ) (f : ℕ → PF) (x : PF)
    (h : ∀ i, i < n → f i = x) : buildSeries n f = List.replicate n x := by
  rw [buildSeries_congr n f (fun _ => x) h]
  unfold buildSeries
  rw [List.map_const']
  simp

theorem any_isna_replicate_val (m : ℕ) (q : ℚ) :
    (List.replicate m (PF.val q)).any PF.isna = false := by
  induction m with
  | zero => rfl
  | succ k ih => simp [List.replicate_succ, PF.isna, ih]

theorem foldl_add_replicate_val (m : ℕ) (a q : ℚ) :
    (List.replicate m (PF.val q)).foldl PF.add (PF.val a) = PF.val (a + m * q) := by
  induction m generalizing a with
  | zero => simp
  | succ k ih =>
    rw [List.replicate_succ, List.foldl_cons]
    show (List.replicate k (PF.val q)).foldl PF.add (PF.val (a + q)) = _
    rw [ih (a + q)]
    congr 1
    push_cast
    ring

theorem sumPF_replicate_val (m : ℕ) (q : ℚ) :
    sumPF (List.replicate m (PF.val q)) = PF.val (m * q) := by
  unfold sumPF
  rw [foldl_add_replicate_val]
  congr 1
  ring

theorem windowAt_replicate_val (w i n : ℕ) (q : ℚ) (hw : w ≤ i + 1) (hi : i < n) :
    windowAt w i (List.replicate n (PF.val q)) = List.replicate w (PF.val q) := by
  unfold windowAt
  rw [List.map_congr_left (g := fun _ => PF.val q), List.map_const']
  · simp
  · intro j hj
    rw [List.mem_range] at hj
    exact replicate_getD n _ _ _ (by omega)

theorem rollingMean_replicate_val (w n : ℕ) (q : ℚ) (hw : 0 < w) :
    rollingMean w (List.replicate n (PF.val q)) =
      buildSeries n (fun i => if i + 1 < w then PF.nan else PF.val q) := by
  unfold rollingMean
  rw [List.length_replicate]
  apply buildSeries_congr
  intro i hi
  by_cases h1 : i + 1 < w
  · simp [h1]
  · rw [if_neg h1, if_neg h1]
    rw [windowAt_replicate_val w i n q (by omega) hi]
    simp only [any_isna_replicate_val, Bool.false_eq_true, if_false]
    rw [sumPF_replicate_val]
    have hwq : (w : ℚ) ≠ 0 := by positivity
    show PF.div (PF.val (w * q)) (PF.val w) = PF.val q
    simp only [PF.div, if_neg hwq]
    rw [mul_div_cancel_left₀ q hwq]

theorem diffF_replicate_val (k n : ℕ) (q : ℚ) :
    diffF k (List.replicate n (PF.val q)) =
      buildSeries n (fun i => if i < k then PF.nan else PF.val 0) := by
  unfold diffF
  rw [List.length_replicate]
  apply buildSeries_congr
  intro i hi
  by_cases h1 : i < k
  · simp [h1]
  · rw [if_neg h1, if_neg h1, replicate_getD n _ _ _ hi,
      replicate_getD n _ _ _ (by omega)]
    simp [PF.sub]

theorem nan_sub (x : PF) : PF.nan.sub x = PF.nan := by cases x <;> rfl

theorem nan_mulPF (x : PF) : PF.nan.mul x = PF.nan := by cases x <;> rfl

theorem nan_divPF (x : PF) : PF.nan.div x = PF.nan := by cases x <;> rfl

theorem nan_addPF (x : PF) : PF.nan.add x = PF.nan := by cases x <;> rfl

theorem sub_nanPF (x : PF) : x.sub PF.nan = PF.nan := by cases x <;> rfl

theorem div_nanPF (x : PF) : x.div PF.nan = PF.nan := by cases x <;> rfl

theorem add_nanPF (x : PF) : x.add PF.nan = PF.nan := by cases x <;> rfl

theorem mul_nanPF (x : PF) : x.mul PF.nan = PF.nan := by cases x <;> rfl

theorem diffF_replicate_nan (k n : ℕ) :
    diffF k (List.replicate n PF.nan) = List.replicate n PF.nan := by
  unfold diffF
  rw [List.length_replicate]
  apply buildSeries_const_of
  intro i hi
  by_cases h1 : i < k
  · simp [h1]
  · rw [if_neg h1]
    simp only [replicate_nan_getD, nan_sub]

theorem map2F_replicate_val (f : PF → PF → PF) (n : ℕ) (a b : ℚ) :
    map2F f (List.replicate n (PF.val a)) (List.replicate n (PF.val b)) =
      List.replicate n (f (PF.val a) (PF.val b)) := by
  unfold map2F
  rw [List.length_replicate]
  apply buildSeries_const_of
  intro i hi
  rw [replicate_getD n _ _ _ hi, replicate_getD n _ _ _ hi]

theorem ewmAux_replicate_val (a q : ℚ) (m : ℕ) :
    ewmAux a (PF.val q) (List.replicate m (PF.val q)) = List.replicate m (PF.val q) := by
  induction m with
  | zero => rfl
  | succ k ih =>
    rw [List.replicate_succ]
    show ewmStep a (PF.val q) (PF.val q) :: ewmAux a (ewmStep a (PF.val q) (PF.val q))
      (List.replicate k (PF.val q)) = _
    have hstep : ewmStep a (PF.val q) (PF.val q) = PF.val q := by
      simp only [ewmStep, PF.isna, PF.mul, PF.add, Bool.false_eq_true, if_false]
      congr 1
      ring
    rw [hstep, ih]

theorem ewmMean_replicate_val (span : ℕ) (n : ℕ) (q : ℚ) :
    ewmMean span (List.replicate n (PF.val q)) = List.replicate n (PF.val q) := by
  cases n with
  | zero => rfl
  | succ k =>
    rw [List.replicate_succ]
    show ewmStep _ PF.nan (PF.val q) :: ewmAux _ (ewmStep _ PF.nan (PF.val q))
      (List.replicate k (PF.val q)) = _
    rw [ewmStep_nan_prev, ewmAux_replicate_val]

theorem ilocNeg_buildSeries (n : ℕ) (f : ℕ → PF) (k : ℕ) (h1 : 1 ≤ k) (h2 : k ≤ n) :
    ilocNeg (buildSeries n f) k = some (f (n - k)) := by
  unfold ilocNeg
  rw [buildSeries_length, if_pos (by omega), buildSeries_getD _ _ _ _ (by omega)]

/-!  ## The indicator pipeline on a flat 260-bar series  -/

/-- A flat 260-bar series: constant close `c` (= open = high = low) and
constant volume `v`, dates `0,…,259`. -/
def flatBars (c v : ℚ) : List Bar :=
  (List.range 260).map fun i =>
    { date := i, openPrice := c, high := c, low := c, close := c, volume := v }

theorem flatBars_close (c v : ℚ) :
    (flatBars c v).map (fun b => PF.val b.close) = List.replicate 260 (PF.val c) := by
  unfold flatBars
  rw [List.map_map]
  show (List.range 260).map (fun _ => PF.val c) = _
  rw [List.map_const']
  simp

theorem flatBars_high (c v : ℚ) :
    (flatBars c v).map (fun b => PF.val b.high) = List.replicate 260 (PF.val c) := by
  unfold flatBars
  rw [List.map_map]
  show (List.range 260).map (fun _ => PF.val c) = _
  rw [List.map_const']
  simp

theorem flatBars_low (c v : ℚ) :
    (flatBars c v).map (fun b => PF.val b.low) = List.replicate 260 (PF.val c) := by
  unfold flatBars
  rw [List.map_map]
  show (List.range 260).map (fun _ => PF.val c) = _
  rw [List.map_const']
  simp

theorem flatBars_volume (c v : ℚ) :
    (flatBars c v).map (fun b => PF.val b.volume) = List.replicate 260 (PF.val v) := by
  unfold flatBars
  rw [List.map_map]
  show (List.range 260).map (fun _ => PF.val v) = _
  rw [List.map_const']
  simp

/-- On a constant close series the masked gain/loss deltas are all zero, so
`gain` and `loss` are 0 once the window fills and the RSI column is entirely
NaN (`RS = 0/0`). -/
theorem calculate_rsi_replicate_val (n : ℕ) (q : ℚ) :
    calculate_rsi 14 (List.replicate n (PF.val q)) = List.replicate n PF.nan := by
  have hmaskG : buildSeries (diffF 1 (List.replicate n (PF.val q))).length (fun i =>
      if ((diffF 1 (List.replicate n (PF.val q))).getD i PF.nan).gt (PF.val 0) then
        (diffF 1 (List.replicate n (PF.val q))).getD i PF.nan else PF.val 0) =
      List.replicate n (PF.val 0) := by
    rw [diffF_replicate_val, buildSeries_length]
    apply buildSeries_const_of
    intro i hi
    rw [buildSeries_getD _ _ _ _ hi]
    by_cases h1 : i < 1 <;> simp [h1, PF.gt, PF.lt]
  have hmaskL : buildSeries (diffF 1 (List.replicate n (PF.val q))).length (fun i =>
      if ((diffF 1 (List.replicate n (PF.val q))).getD i PF.nan).lt (PF.val 0) then
        (diffF 1 (List.replicate n (PF.val q))).getD i PF.nan else PF.val 0) =
      List.replicate n (PF.val 0) := by
    rw [diffF_replicate_val, buildSeries_length]
    apply buildSeries_const_of
    intro i hi
    rw [buildSeries_getD _ _ _ _ hi]
    by_cases h1 : i < 1 <;> simp [h1, PF.lt]
  have hneg : mapF PF.neg (List.replicate n (PF.val 0)) = List.replicate n (PF.val 0) := by
    unfold mapF
    rw [List.length_replicate]
    apply buildSeries_const_of
    intro i hi
    rw [replicate_getD n _ _ _ hi]
    simp [PF.neg]
  have hgain : rsiGain 14 (List.replicate n (PF.val q)) =
      buildSeries n (fun i => if i + 1 < 14 then PF.nan else PF.val 0) := by
    simp only [rsiGain]
    rw [hmaskG, rollingMean_replicate_val 14 n 0 (by omega)]
  have hloss : rsiLoss 14 (List.replicate n (PF.val q)) =
      buildSeries n (fun i => if i + 1 < 14 then PF.nan else PF.val 0) := by
    simp only [rsiLoss]
    rw [hmaskL, hneg, rollingMean_replicate_val 14 n 0 (by omega)]
  simp only [calculate_rsi]
  rw [hgain, hloss]
  have hrs : map2F PF.div
      (buildSeries n (fun i => if i + 1 < 14 then PF.nan else PF.val 0))
      (buildSeries n (fun i => if i + 1 < 14 then PF.nan else PF.val 0)) =
      List.replicate n PF.nan := by
    unfold map2F
    rw [buildSeries_length]
    apply buildSeries_const_of
    intro i hi
    rw [buildSeries_getD _ _ _ _ hi]
    by_cases h1 : i + 1 < 14 <;> simp [h1, PF.div]
  rw [hrs]
  unfold mapF
  rw [List.length_replicate]
  apply buildSeries_const_of
  intro i hi
  rw [replicate_nan_getD]
  rfl

theorem max2_nan_right (x : PF) : x.max2 PF.nan = x := by cases x <;> rfl

theorem trueRange_replicate_val (n : ℕ) (c : ℚ) :
    trueRange (List.replicate n (PF.val c)) (List.replicate n (PF.val c))
      (List.replicate n (PF.val c)) = List.replicate n (PF.val 0) := by
  unfold trueRange
  rw [List.length_replicate]
  apply buildSeries_const_of
  intro i hi
  have h1 : (map2F PF.sub (List.replicate n (PF.val c))
      (List.replicate n (PF.val c))).getD i PF.nan = PF.val 0 := by
    rw [map2F_replicate_val]
    rw [replicate_getD _ _ _ _ hi]
    simp [PF.sub]
  have hshift : (shiftF 1 (List.replicate n (PF.val c))).getD i PF.nan =
      if i < 1 then PF.nan else PF.val c := by
    unfold shiftF
    rw [buildSeries_getD _ _ _ _ (by simpa using hi)]
    by_cases h2 : i < 1
    · simp [h2]
    · rw [if_neg h2, if_neg h2, replicate_getD _ _ _ _ (by omega)]
  have h23 : ∀ col : List PF, col = List.replicate n (PF.val c) →
      (mapF PF.abs (map2F PF.sub col (shiftF 1 (List.replicate n (PF.val c))))).getD
        i PF.nan = if i < 1 then PF.nan else PF.val 0 := by
    intro col hcol
    subst hcol
    rw [mapF_getD _ _ _ (by simpa [map2F_length] using hi),
      map2F_getD _ _ _ _ (by simpa using hi), hshift,
      replicate_getD _ _ _ _ hi]
    by_cases h2 : i < 1
    · rw [if_pos h2, if_pos h2, sub_nanPF]
      rfl
    · rw [if_neg h2, if_neg h2]
      simp [PF.sub, PF.abs]
  rw [h1, h23 _ rfl]
  by_cases h2 : i < 1
  · rw [if_pos h2]
    decide
  · rw [if_neg h2]
    decide

theorem calculate_adx_replicate_val (n : ℕ) (c : ℚ) :
    calculate_adx (List.replicate n (PF.val c)) (List.replicate n (PF.val c))
      (List.replicate n (PF.val c)) 14 =
      (List.replicate n PF.nan, List.replicate n PF.nan, List.replicate n PF.nan) := by
  simp only [calculate_adx]
  rw [trueRange_replicate_val, diffF_replicate_val, List.length_replicate,
    rollingMean_replicate_val 14 n 0 (by omega)]
  have hlow : mapF PF.neg (buildSeries n fun i => if i < 1 then PF.nan else PF.val 0) =
      buildSeries n (fun i => if i < 1 then PF.nan else PF.val 0) := by
    unfold mapF
    rw [buildSeries_length]
    apply buildSeries_congr
    intro i hi
    rw [buildSeries_getD _ _ _ _ hi]
    by_cases h1 : i < 1 <;> simp [h1, PF.neg]
  rw [hlow]
  have hdm : ∀ cmp : PF → PF → Bool, (∀ x, cmp x x = false) →
      buildSeries n (fun i =>
        if cmp ((buildSeries n fun j => if j < 1 then PF.nan else PF.val 0).getD i PF.nan)
            ((buildSeries n fun j => if j < 1 then PF.nan else PF.val 0).getD i PF.nan) &&
            PF.gt ((buildSeries n fun j => if j < 1 then PF.nan else PF.val 0).getD i PF.nan)
              (PF.val 0) then
          (buildSeries n fun j => if j < 1 then PF.nan else PF.val 0).getD i PF.nan
        else PF.val 0) = List.replicate n (PF.val 0) := by
    intro cmp hcmp
    apply buildSeries_const_of
    intro i hi
    rw [buildSeries_getD _ _ _ _ hi]
    simp [hcmp]
  rw [hdm PF.gt (fun x => by cases x <;> simp [PF.gt, PF.lt]),
    rollingMean_replicate_val 14 n 0 (by omega)]
  have hdi : mapF (fun x => (PF.val 100).mul x) (map2F PF.div
      (buildSeries n fun i => if i + 1 < 14 then PF.nan else PF.val 0)
      (buildSeries n fun i => if i + 1 < 14 then PF.nan else PF.val 0)) =
      List.replicate n PF.nan := by
    unfold mapF
    rw [map2F_length, buildSeries_length]
    apply buildSeries_const_of
    intro i hi
    rw [map2F_getD _ _ _ _ (by simpa [buildSeries_length] using hi),
      buildSeries_getD _ _ _ _ hi]
    by_cases h1 : i + 1 < 14 <;> simp [h1, PF.div, PF.mul]
  rw [hdi]
  have hdx : map2F (fun p m => ((PF.val 100).mul ((p.sub m).abs)).div (p.add m))
      (List.replicate n PF.nan) (List.replicate n PF.nan) =
      List.replicate n PF.nan := by
    unfold map2F
    rw [List.length_replicate]
    apply buildSeries_const_of
    intro i hi
    rw [replicate_nan_getD]
    simp [nan_sub, PF.abs, mul_nanPF, nan_addPF, nan_divPF]
  rw [hdx, rollingMean_replicate_nan 14 n (by omega)]

theorem map2F_replicate (f : PF → PF → PF) (n : ℕ) (a b : PF) :
    map2F f (List.replicate n a) (List.replicate n b) =
      List.replicate n (f a b) := by
  unfold map2F
  rw [List.length_replicate]
  apply buildSeries_const_of
  intro i hi
  rw [replicate_getD n _ _ _ hi, replicate_getD n _ _ _ hi]

theorem val_sub_val_self (c : ℚ) : (PF.val c).sub (PF.val c) = PF.val 0 := by
  simp [PF.sub]

theorem calculate_macd_replicate_val (n : ℕ) (c : ℚ) :
    calculate_macd (List.replicate n (PF.val c)) =
      (List.replicate n (PF.val 0), List.replicate n (PF.val 0),
        List.replicate n (PF.val 0)) := by
  simp only [calculate_macd, calculate_ema]
  rw [ewmMean_replicate_val 12 n c, ewmMean_replicate_val 26 n c,
    map2F_replicate, val_sub_val_self, ewmMean_replicate_val 9 n 0,
    map2F_replicate, val_sub_val_self]

theorem calculate_roc_replicate_val (n : ℕ) (c : ℚ) :
    calculate_roc (List.replicate n (PF.val c)) 10 =
      buildSeries n (fun i => if i < 10 then PF.nan
        else (((PF.val c).sub (PF.val c)).div (PF.val c)).mul (PF.val 100)) := by
  unfold calculate_roc map2F
  rw [List.length_replicate]
  apply buildSeries_congr
  intro i hi
  rw [replicate_getD n _ _ _ hi]
  have hshift : (shiftF 10 (List.replicate n (PF.val c))).getD i PF.nan =
      if i < 10 then PF.nan else PF.val c := by
    unfold shiftF
    rw [buildSeries_getD _ _ _ _ (by simpa using hi)]
    by_cases h2 : i < 10
    · simp [h2]
    · rw [if_neg h2, if_neg h2, replicate_getD _ _ _ _ (by omega)]
  rw [hshift]
  by_cases h2 : i < 10
  · rw [if_pos h2, if_pos h2]
    simp only [sub_nanPF, div_nanPF, nan_mulPF]
  · rw [if_neg h2, if_neg h2]

theorem adxRising_replicate_nan (n : ℕ) :
    (diffF 3 (List.replicate n PF.nan)).map (fun d => d.gt (PF.val 0)) =
      List.replicate n false := by
  rw [diffF_replicate_nan, List.map_replicate]
  rfl

theorem filter_notna_replicate_val (m : ℕ) (q : ℚ) :
    List.filter (fun x => !PF.isna x) (List.replicate m (PF.val q)) =
      List.replicate m (PF.val q) := by
  induction m with
  | zero => rfl
  | succ k ih => simp [List.replicate_succ, PF.isna, ih]

theorem seriesMean_replicate_val (m : ℕ) (q : ℚ) (hm : 0 < m) :
    seriesMean (List.replicate m (PF.val q)) = PF.val q := by
  unfold seriesMean
  rw [filter_notna_replicate_val]
  rw [if_neg (by simp; omega)]
  rw [sumPF_replicate_val, List.length_replicate]
  have hmq : (m : ℚ) ≠ 0 := by positivity
  show PF.div (PF.val (m * q)) (PF.val m) = PF.val q
  simp only [PF.div, if_neg hmq]
  rw [mul_div_cancel_left₀ q hmq]

theorem div_self_gt_one_false (q : ℚ) :
    (((PF.val q).div (PF.val q)).gt (PF.val 1)) = false := by
  by_cases hq : q = 0
  · subst hq; decide
  · simp only [PF.div, if_neg hq, div_self hq]
    decide

theorem volumePriceConfirmPoints_flat (v c : ℚ) :
    volumePriceConfirmPoints (List.replicate 260 (PF.val v))
      (List.replicate 260 (PF.val c)) = 0 := by
  unfold volumePriceConfirmPoints
  rw [lastSlice_replicate, lastSlice_replicate, sliceNeg_replicate, sliceNeg_replicate]
  norm_num
  rw [seriesMean_replicate_val 10 v (by omega), seriesMean_replicate_val 10 c (by omega)]
  simp [div_self_gt_one_false]

/-- C9: for every flat 260-bar PriceSeries — any constant close `c` with
`high = low = close` and any constant volume `v` — the Momentum & Strength
category scores exactly 0 (ADX, DI spread and RSI are NaN, ROC is 0 or NaN,
MACD equals its signal), and the Volume & Liquidity co-trend sub-rule
(10-day means of volume and close against the prior 10-day means) also
contributes 0. -/
theorem c9_flat_series_momentum_and_cotrend (c v : ℚ) :
    score_momentum_strength (calculate_all_indicators (flatBars c v)) = 0 ∧
    volumePriceConfirmPoints (calculate_all_indicators (flatBars c v)).Volume
      (calculate_all_indicators (flatBars c v)).Close = 0 := by
  have hADX : (calculate_all_indicators (flatBars c v)).ADX = List.replicate 260 PF.nan := by
    simp only [calculate_all_indicators]
    rw [flatBars_high, flatBars_low, flatBars_close, calculate_adx_replicate_val]
  have hDI : (calculate_all_indicators (flatBars c v)).DI_Spread =
      List.replicate 260 PF.nan := by
    simp only [calculate_all_indicators]
    rw [flatBars_high, flatBars_low, flatBars_close, calculate_adx_replicate_val]
    show map2F PF.sub (List.replicate 260 PF.nan) (List.replicate 260 PF.nan) = _
    rw [map2F_replicate]
    rfl
  have hRising : (calculate_all_indicators (flatBars c v)).ADX_Rising =
      List.replicate 260 false := by
    simp only [calculate_all_indicators]
    rw [flatBars_high, flatBars_low, flatBars_close, calculate_adx_replicate_val]
    show (diffF 3 (List.replicate 260 PF.nan)).map _ = _
    exact adxRising_replicate_nan 260
  have hRSI : (calculate_all_indicators (flatBars c v)).RSI = List.replicate 260 PF.nan := by
    simp only [calculate_all_indicators]
    rw [flatBars_close, calculate_rsi_replicate_val]
  have hROC : (calculate_all_indicators (flatBars c v)).ROC =
      buildSeries 260 (fun i => if i < 10 then PF.nan
        else (((PF.val c).sub (PF.val c)).div (PF.val c)).mul (PF.val 100)) := by
    simp only [calculate_all_indicators]
    rw [flatBars_close, calculate_roc_replicate_val]
  have hMACD : (calculate_all_indicators (flatBars c v)).MACD =
      List.replicate 260 (PF.val 0) := by
    simp only [calculate_all_indicators]
    rw [flatBars_close, calculate_macd_replicate_val]
  have hSignal : (calculate_all_indicators (flatBars c v)).MACD_Signal =
      List.replicate 260 (PF.val 0) := by
    simp only [calculate_all_indicators]
    rw [flatBars_close, calculate_macd_replicate_val]
  have hHist : (calculate_all_indicators (flatBars c v)).MACD_Hist =
      List.replicate 260 (PF.val 0) := by
    simp only [calculate_all_indicators]
    rw [flatBars_close, calculate_macd_replicate_val]
  have hHistMom : (calculate_all_indicators (flatBars c v)).Hist_Momentum =
      buildSeries 260 (fun i => if i < 3 then PF.nan else PF.val 0) := by
    simp only [calculate_all_indicators]
    rw [flatBars_close, calculate_macd_replicate_val]
    show diffF 3 (List.replicate 260 (PF.val 0)) = _
    rw [diffF_replicate_val]
  have hVolume : (calculate_all_indicators (flatBars c v)).Volume =
      List.replicate 260 (PF.val v) := by
    simp only [calculate_all_indicators]
    rw [flatBars_volume]
  have hClose : (calculate_all_indicators (flatBars c v)).Close =
      List.replicate 260 (PF.val c) := by
    simp only [calculate_all_indicators]
    rw [flatBars_close]
  constructor
  · have r1 : ilocNeg (calculate_all_indicators (flatBars c v)).ADX 1 = some PF.nan := by
      rw [hADX]; exact ilocNeg_replicate 260 1 PF.nan (by omega) (by omega)
    have r2 : ilocNeg (calculate_all_indicators (flatBars c v)).DI_Spread 1 =
        some PF.nan := by
      rw [hDI]; exact ilocNeg_replicate 260 1 PF.nan (by omega) (by omega)
    have r3 : ilocNegBool (calculate_all_indicators (flatBars c v)).ADX_Rising 1 =
        some false := by
      rw [hRising]; exact ilocNegBool_replicate 260 1 false (by omega) (by omega)
    have r4 : ilocNeg (calculate_all_indicators (flatBars c v)).RSI 1 = some PF.nan := by
      rw [hRSI]; exact ilocNeg_replicate 260 1 PF.nan (by omega) (by omega)
    have r5 : ilocNeg (calculate_all_indicators (flatBars c v)).ROC 1 =
        some ((((PF.val c).sub (PF.val c)).div (PF.val c)).mul (PF.val 100)) := by
      rw [hROC, ilocNeg_buildSeries 260 _ 1 (by omega) (by omega)]
      norm_num
    have r6 : ilocNeg (calculate_all_indicators (flatBars c v)).MACD 1 =
        some (PF.val 0) := by
      rw [hMACD]; exact ilocNeg_replicate 260 1 _ (by omega) (by omega)
    have r7 : ilocNeg (calculate_all_indicators (flatBars c v)).MACD_Signal 1 =
        some (PF.val 0) := by
      rw [hSignal]; exact ilocNeg_replicate 260 1 _ (by omega) (by omega)
    have r8 : ilocNeg (calculate_all_indicators (flatBars c v)).MACD_Hist 1 =
        some (PF.val 0) := by
      rw [hHist]; exact ilocNeg_replicate 260 1 _ (by omega) (by omega)
    have r9 : ilocNeg (calculate_all_indicators (flatBars c v)).Hist_Momentum 1 =
        some (PF.val 0) := by
      rw [hHistMom, ilocNeg_buildSeries 260 _ 1 (by omega) (by omega)]
      norm_num
    have hroc0 : rocPoints ((((PF.val c).sub (PF.val c)).div (PF.val c)).mul
        (PF.val 100)) = 0 := by
      by_cases hc : c = 0
      · subst hc; with_unfolding_all decide
      · rw [val_sub_val_self]
        simp only [PF.div, if_neg hc, zero_div]
        with_unfolding_all decide
    simp only [score_momentum_strength, r1, r2, r3, r4, r5, r6, r7, r8, r9, hroc0]
    with_unfolding_all decide
  · rw [hVolume, hClose]
    exact volumePriceConfirmPoints_flat v c

/-!  ## Definedness machinery for C2  -/

/-- The entry of `xs` at `i` is an actual number. -/
def RealAt (xs : List PF) (i : ℕ) : Prop := (xs.getD i PF.nan).isReal = true

/-- The entry of `xs` at `i` is a strictly positive number. -/
def PosAt (xs : List PF) (i : ℕ) : Prop :=
  ∃ q : ℚ, xs.getD i PF.nan = PF.val q ∧ 0 < q

theorem isReal_iff (x : PF) : x.isReal = true ↔ ∃ q, x = PF.val q := by
  cases x <;> simp [PF.isReal]

theorem PosAt.realAt {xs : List PF} {i : ℕ} (h : PosAt xs i) : RealAt xs i := by
  obtain ⟨q, hq, _⟩ := h
  unfold RealAt
  rw [hq]
  rfl

theorem isReal_add {a b : PF} (ha : a.isReal = true) (hb : b.isReal = true) :
    (a.add b).isReal = true := by
  cases a <;> cases b <;> simp_all [PF.add, PF.isReal]

theorem isReal_sub {a b : PF} (ha : a.isReal = true) (hb : b.isReal = true) :
    (a.sub b).isReal = true := by
  cases a <;> cases b <;> simp_all [PF.sub, PF.isReal]

theorem isReal_mul {a b : PF} (ha : a.isReal = true) (hb : b.isReal = true) :
    (a.mul b).isReal = true := by
  cases a <;> cases b <;> simp_all [PF.mul, PF.isReal]

theorem isReal_abs {a : PF} (ha : a.isReal = true) : a.abs.isReal = true := by
  cases a <;> simp_all [PF.abs, PF.isReal]

theorem isReal_div {a : PF} {q : ℚ} (ha : a.isReal = true) (hq : q ≠ 0) :
    (a.div (PF.val q)).isReal = true := by
  obtain ⟨p, rfl⟩ := (isReal_iff a).mp ha
  simp [PF.div, hq, PF.isReal]

theorem isReal_max2 {a b : PF} (ha : a.isReal = true) (hb : b.isReal = true) :
    (a.max2 b).isReal = true := by
  cases a <;> cases b <;> simp_all [PF.max2, PF.isReal] <;> split_ifs <;> simp [PF.isReal]

theorem foldl_add_real (l : List PF) (acc : PF) (hacc : acc.isReal = true)
    (h : ∀ x ∈ l, x.isReal = true) : (l.foldl PF.add acc).isReal = true := by
  induction l generalizing acc with
  | nil => exact hacc
  | cons x rest ih =>
    rw [List.foldl_cons]
    exact ih (acc.add x) (isReal_add hacc (h x (by simp)))
      (fun y hy => h y (by simp [hy]))

theorem sumPF_real (l : List PF) (h : ∀ x ∈ l, x.isReal = true) :
    (sumPF l).isReal = true :=
  foldl_add_real l (PF.val 0) rfl h

theorem foldl_add_val_nonneg (l : List PF) (hl : ∀ x ∈ l, ∃ p, x = PF.val p ∧ 0 ≤ p) :
    ∀ a : ℚ, 0 ≤ a → ∃ s, l.foldl PF.add (PF.val a) = PF.val s ∧ 0 ≤ s := by
  induction l with
  | nil => exact fun a ha => ⟨a, rfl, ha⟩
  | cons x rest ih =>
    intro a ha
    obtain ⟨p, rfl, hp⟩ := hl x (by simp)
    rw [List.foldl_cons]
    exact ih (fun y hy => hl y (by simp [hy])) (a + p) (add_nonneg ha hp)

theorem foldl_add_val_pos (l : List PF) (hl : ∀ x ∈ l, ∃ p, x = PF.val p ∧ 0 < p) :
    ∀ a : ℚ, 0 ≤ a → ∃ s, l.foldl PF.add (PF.val a) = PF.val s ∧ a ≤ s ∧
      (l ≠ [] → 0 < s) := by
  induction l with
  | nil => exact fun a ha => ⟨a, rfl, le_refl a, fun h => absurd rfl h⟩
  | cons x rest ih =>
    intro a ha
    obtain ⟨p, rfl, hp⟩ := hl x (by simp)
    rw [List.foldl_cons]
    obtain ⟨s, hs, hle, _⟩ := ih (fun y hy => hl y (by simp [hy])) (a + p)
      (by linarith)
    exact ⟨s, hs, by linarith, fun _ => by linarith⟩

theorem foldl_max2_real (l : List PF) (h : ∀ x ∈ l, x.isReal = true) :
    ∀ acc : PF, acc.isReal = true → (l.foldl PF.max2 acc).isReal = true := by
  induction l with
  | nil => exact fun _ hacc => hacc
  | cons x rest ih =>
    intro acc hacc
    rw [List.foldl_cons]
    exact ih (fun y hy => h y (by simp [hy])) (acc.max2 x)
      (isReal_max2 hacc (h x (by simp)))

theorem max2_nan_left (x : PF) : PF.nan.max2 x = x := by cases x <;> rfl

theorem foldl_max2_real_from_nan (l : List PF) (h : ∀ x ∈ l, x.isReal = true)
    (hne : l ≠ []) : (l.foldl PF.max2 PF.nan).isReal = true := by
  cases l with
  | nil => exact absurd rfl hne
  | cons x rest =>
    rw [List.foldl_cons, max2_nan_left]
    exact foldl_max2_real rest (fun y hy => h y (by simp [hy])) x (h x (by simp))

/-- All entries of a column are actual numbers. -/
def AllReal (xs : List PF) : Prop := ∀ j, j < xs.length → RealAt xs j

/-- All entries of a column are strictly positive numbers. -/
def AllPos (xs : List PF) : Prop := ∀ j, j < xs.length → PosAt xs j

theorem AllPos.allReal {xs : List PF} (h : AllPos xs) : AllReal xs :=
  fun j hj => (h j hj).realAt

theorem getD_real_of_forall_mem {l : List PF} (h : ∀ y ∈ l, y.isReal = true)
    {i : ℕ} (hi : i < l.length) : (l.getD i PF.nan).isReal = true := by
  rw [List.getD_eq_getElem?_getD, List.getElem?_eq_getElem hi]
  exact h _ (List.getElem_mem hi)

theorem forall_mem_of_allReal {xs : List PF} (h : AllReal xs) :
    ∀ y ∈ xs, y.isReal = true := by
  intro y hy
  obtain ⟨j, hj, rfl⟩ := List.getElem_of_mem hy
  have := h j hj
  unfold RealAt at this
  rwa [List.getD_eq_getElem?_getD, List.getElem?_eq_getElem hj] at this

theorem windowAt_mem_real {w i : ℕ} {xs : List PF} (h : AllReal xs)
    (hwi : w ≤ i + 1) (hi : i < xs.length) :
    ∀ y ∈ windowAt w i xs, y.isReal = true := by
  intro y hy
  unfold windowAt at hy
  rw [List.mem_map] at hy
  obtain ⟨j, hj, rfl⟩ := hy
  rw [List.mem_range] at hj
  exact h (i + 1 - w + j) (by omega)

theorem windowAt_mem_pos {w i : ℕ} {xs : List PF} (h : AllPos xs)
    (hwi : w ≤ i + 1) (hi : i < xs.length) :
    ∀ y ∈ windowAt w i xs, ∃ p, y = PF.val p ∧ 0 < p := by
  intro y hy
  unfold windowAt at hy
  rw [List.mem_map] at hy
  obtain ⟨j, hj, rfl⟩ := hy
  rw [List.mem_range] at hj
  exact h (i + 1 - w + j) (by omega)

theorem windowAt_no_nan {w i : ℕ} {xs : List PF}
    (h : ∀ y ∈ windowAt w i xs, y.isReal = true) :
    (windowAt w i xs).any PF.isna = false := by
  rw [List.any_eq_false]
  intro y hy
  have := h y hy
  obtain ⟨q, rfl⟩ := (isReal_iff y).mp this
  simp [PF.isna]

theorem windowAt_length (w i : ℕ) (xs : List PF) : (windowAt w i xs).length = w := by
  simp [windowAt]

theorem rollingMean_realAt {w i : ℕ} {xs : List PF} (h : AllReal xs)
    (hw : 0 < w) (hwi : w ≤ i + 1) (hi : i < xs.length) :
    RealAt (rollingMean w xs) i := by
  unfold RealAt rollingMean
  rw [buildSeries_getD _ _ _ _ hi, if_neg (by omega)]
  have hmem := windowAt_mem_real h hwi hi
  simp only [windowAt_no_nan hmem, Bool.false_eq_true, if_false]
  have hwq : (w : ℚ) ≠ 0 := by positivity
  exact isReal_div (sumPF_real _ hmem) hwq

theorem rollingMean_posAt {w i : ℕ} {xs : List PF} (h : AllPos xs)
    (hw : 0 < w) (hwi : w ≤ i + 1) (hi : i < xs.length) :
    PosAt (rollingMean w xs) i := by
  unfold PosAt rollingMean
  rw [buildSeries_getD _ _ _ _ hi, if_neg (by omega)]
  have hmem := windowAt_mem_pos h hwi hi
  simp only [windowAt_no_nan (fun y hy => by
    obtain ⟨p, rfl, _⟩ := hmem y hy; rfl), Bool.false_eq_true, if_false]
  obtain ⟨s, hs, _, hpos⟩ := foldl_add_val_pos _ hmem 0 le_rfl
  have hne : windowAt w i xs ≠ [] := by
    intro hcon
    have := windowAt_length w i xs
    rw [hcon] at this
    simp at this
    omega
  have hwq : (w : ℚ) ≠ 0 := by positivity
  refine ⟨s / w, ?_, div_pos (hpos hne) (by positivity)⟩
  show PF.div (sumPF (windowAt w i xs)) (PF.val w) = _
  unfold sumPF
  rw [hs]
  simp [PF.div, hwq]

theorem rollingMax_realAt {w i : ℕ} {xs : List PF} (h : AllReal xs)
    (hw : 0 < w) (hwi : w ≤ i + 1) (hi : i < xs.length) :
    RealAt (rollingMax w xs) i := by
  unfold RealAt rollingMax
  rw [buildSeries_getD _ _ _ _ hi, if_neg (by omega)]
  have hmem := windowAt_mem_real h hwi hi
  simp only [windowAt_no_nan hmem, Bool.false_eq_true, if_false]
  apply foldl_max2_real_from_nan _ hmem
  intro hcon
  have := windowAt_length w i xs
  rw [hcon] at this
  simp at this
  omega

theorem rollingStd_realAt {w i : ℕ} {xs : List PF} (h : AllReal xs)
    (hw : 2 ≤ w) (hwi : w ≤ i + 1) (hi : i < xs.length) :
    RealAt (rollingStd w xs) i := by
  unfold RealAt rollingStd
  rw [buildSeries_getD _ _ _ _ hi, if_neg (by omega)]
  have hmem := windowAt_mem_real h hwi hi
  simp only [windowAt_no_nan hmem, Bool.false_eq_true, if_false]
  have hwq : (w : ℚ) ≠ 0 := by positivity
  have hm : ((sumPF (windowAt w i xs)).div (PF.val w)).isReal = true :=
    isReal_div (sumPF_real _ hmem) hwq
  obtain ⟨r, hr⟩ := (isReal_iff _).mp hm
  rw [hr]
  have hdev : ∀ y ∈ (windowAt w i xs).map (fun x => (x.sub (PF.val r)).mul
      (x.sub (PF.val r))), ∃ p, y = PF.val p ∧ 0 ≤ p := by
    intro y hy
    rw [List.mem_map] at hy
    obtain ⟨x, hx, rfl⟩ := hy
    obtain ⟨p, rfl⟩ := (isReal_iff x).mp (hmem x hx)
    exact ⟨(p - r) * (p - r), rfl, mul_self_nonneg _⟩
  obtain ⟨s, hs, hs0⟩ := foldl_add_val_nonneg _ hdev 0 le_rfl
  show (pfSqrt ((sumPF _).div (PF.val ((w - 1 : ℕ) : ℚ)))).isReal = true
  unfold sumPF
  rw [hs]
  have hw1 : ((w - 1 : ℕ) : ℚ) ≠ 0 := by
    have : 1 ≤ w - 1 := by omega
    positivity
  simp only [PF.div, if_neg hw1]
  have hq0 : 0 ≤ s / ((w - 1 : ℕ) : ℚ) := by positivity
  simp [pfSqrt, not_lt.mpr hq0, PF.isReal]

theorem sgn_real_or_nan (d : PF) : (PF.sgn d).isReal = true ∨ PF.sgn d = PF.nan := by
  cases d <;> simp [PF.sgn, PF.isReal]

theorem ewmStep_pos {a : ℚ} (h0 : 0 < a) (h1 : a ≤ 1) {prev x : PF}
    (hp : ∃ p, prev = PF.val p ∧ 0 < p) (hx : ∃ p, x = PF.val p ∧ 0 < p) :
    ∃ p, ewmStep a prev x = PF.val p ∧ 0 < p := by
  obtain ⟨p, rfl, hpp⟩ := hp
  obtain ⟨q, rfl, hqq⟩ := hx
  refine ⟨a * q + (1 - a) * p, ?_, ?_⟩
  · simp [ewmStep, PF.isna, PF.mul, PF.add]
  · have h2 : 0 < a * q := mul_pos h0 hqq
    have h3 : 0 ≤ (1 - a) * p := mul_nonneg (by linarith) (le_of_lt hpp)
    linarith

theorem ewmAux_forall_real (a : ℚ) (xs : List PF) (h : ∀ x ∈ xs, x.isReal = true) :
    ∀ prev, (prev.isReal = true ∨ prev = PF.nan) →
    ∀ y ∈ ewmAux a prev xs, y.isReal = true := by
  induction xs with
  | nil => intro _ _ y hy; simp [ewmAux] at hy
  | cons x rest ih =>
    intro prev hprev y hy
    have hx : x.isReal = true := h x (by simp)
    have hcur : (ewmStep a prev x).isReal = true := by
      rcases hprev with hp | hp
      · exact ewmStep_real a prev x hp hx
      · subst hp; rw [ewmStep_nan_prev]; exact hx
    rw [ewmAux, List.mem_cons] at hy
    rcases hy with rfl | hy
    · exact hcur
    · exact ih (fun z hz => h z (by simp [hz])) _ (Or.inl hcur) y hy

theorem ewmAux_forall_pos {a : ℚ} (h0 : 0 < a) (h1 : a ≤ 1) (xs : List PF)
    (h : ∀ x ∈ xs, ∃ p, x = PF.val p ∧ 0 < p) :
    ∀ prev, ((∃ p, prev = PF.val p ∧ 0 < p) ∨ prev = PF.nan) →
    ∀ y ∈ ewmAux a prev xs, ∃ p, y = PF.val p ∧ 0 < p := by
  induction xs with
  | nil => intro _ _ y hy; simp [ewmAux] at hy
  | cons x rest ih =>
    intro prev hprev y hy
    have hx := h x (by simp)
    have hcur : ∃ p, ewmStep a prev x = PF.val p ∧ 0 < p := by
      rcases hprev with hp | hp
      · exact ewmStep_pos h0 h1 hp hx
      · subst hp; rw [ewmStep_nan_prev]; exact hx
    rw [ewmAux, List.mem_cons] at hy
    rcases hy with rfl | hy
    · exact hcur
    · exact ih (fun z hz => h z (by simp [hz])) _ (Or.inl hcur) y hy

theorem ewmMean_allReal {span : ℕ} {xs : List PF} (h : AllReal xs) :
    AllReal (ewmMean span xs) := by
  intro j hj
  rw [ewmMean_length] at hj
  unfold RealAt ewmMean
  apply getD_real_of_forall_mem
  · exact ewmAux_forall_real _ xs (forall_mem_of_allReal h) PF.nan (Or.inr rfl)
  · rw [ewmAux_length]; exact hj

theorem ewmMean_allPos {span : ℕ} {xs : List PF} (hspan : 1 ≤ span) (h : AllPos xs) :
    AllPos (ewmMean span xs) := by
  intro j hj
  rw [ewmMean_length] at hj
  have h0 : 0 < 2 / ((span : ℚ) + 1) := by positivity
  have h1 : 2 / ((span : ℚ) + 1) ≤ 1 := by
    rw [div_le_one (by positivity)]
    have : (1 : ℚ) ≤ (span : ℚ) := by exact_mod_cast hspan
    linarith
  unfold PosAt ewmMean
  have hall := ewmAux_forall_pos h0 h1 xs (by
    intro x hx
    obtain ⟨j2, hj2, rfl⟩ := List.getElem_of_mem hx
    have := h j2 hj2
    unfold PosAt at this
    rwa [List.getD_eq_getElem?_getD, List.getElem?_eq_getElem hj2] at this)
    PF.nan (Or.inr rfl)
  have hlen : j < (ewmAux (2 / ((span : ℚ) + 1)) PF.nan xs).length := by
    rw [ewmAux_length]; exact hj
  rw [List.getD_eq_getElem?_getD, List.getElem?_eq_getElem hlen]
  exact hall _ (List.getElem_mem hlen)

theorem validSeries_mem {bars : List Bar} (h : validSeries bars = true) :
    ∀ b ∈ bars, 0 < b.openPrice ∧ 0 < b.high ∧ 0 < b.low ∧ 0 < b.close ∧
      0 ≤ b.volume := by
  unfold validSeries at h
  rw [Bool.and_eq_true] at h
  have h2 := h.2
  rw [List.all_eq_true] at h2
  intro b hb
  have := h2 b hb
  simp only [Bool.and_eq_true, decide_eq_true_eq] at this
  exact ⟨this.1.1.1.1.1.1, this.1.1.1.1.1.2, this.1.1.1.1.2, this.1.1.1.2, this.1.1.2⟩

theorem mapCol_allReal (bars : List Bar) (f : Bar → ℚ) :
    AllReal (bars.map fun b => PF.val (f b)) := by
  intro j hj
  rw [List.length_map] at hj
  unfold RealAt
  rw [List.getD_eq_getElem?_getD, List.getElem?_map, List.getElem?_eq_getElem hj]
  rfl

theorem mapCol_allPos (bars : List Bar) (f : Bar → ℚ) (h : ∀ b ∈ bars, 0 < f b) :
    AllPos (bars.map fun b => PF.val (f b)) := by
  intro j hj
  rw [List.length_map] at hj
  unfold PosAt
  rw [List.getD_eq_getElem?_getD, List.getElem?_map, List.getElem?_eq_getElem hj]
  exact ⟨f bars[j], rfl, h _ (List.getElem_mem hj)⟩

theorem trueRange_realAt {high low close : List PF}
    (hh : AllReal high) (hl : AllReal low) (hc : AllReal close)
    (hlh : low.length = high.length) (hch : close.length = high.length)
    {i : ℕ} (hi : i < high.length) : RealAt (trueRange high low close) i := by
  unfold RealAt trueRange
  rw [buildSeries_getD _ _ _ _ hi]
  have h1 : ((map2F PF.sub high low).getD i PF.nan).isReal = true := by
    rw [map2F_getD _ _ _ _ hi]
    exact isReal_sub (hh i hi) (hl i (by omega))
  obtain ⟨q1, hq1⟩ := (isReal_iff _).mp h1
  have habs : ∀ col : List PF, AllReal col → col.length = high.length →
      ((mapF PF.abs (map2F PF.sub col (shiftF 1 close))).getD i PF.nan).isReal = true ∨
      (mapF PF.abs (map2F PF.sub col (shiftF 1 close))).getD i PF.nan = PF.nan := by
    intro col hcol hcollen
    rw [mapF_getD _ _ _ (by rw [map2F_length, hcollen]; exact hi),
      map2F_getD _ _ _ _ (by rw [hcollen]; exact hi)]
    have hsh : (shiftF 1 close).getD i PF.nan =
        if i < 1 then PF.nan else close.getD (i - 1) PF.nan := by
      unfold shiftF
      rw [buildSeries_getD _ _ _ _ (by omega)]
    rw [hsh]
    by_cases h2 : i < 1
    · right
      rw [if_pos h2, sub_nanPF]
      rfl
    · left
      rw [if_neg h2]
      exact isReal_abs (isReal_sub (hcol i (by omega)) (hc (i - 1) (by omega)))
  rw [hq1]
  have h2 := habs high hh rfl
  have h3 := habs low hl hlh
  rcases h2 with h2 | h2 <;> rcases h3 with h3 | h3
  · exact isReal_max2 (isReal_max2 (by rfl) h2) h3
  · rw [h3, max2_nan_right]
    exact isReal_max2 (by rfl) h2
  · rw [h2, max2_nan_right]
    exact isReal_max2 (by rfl) h3
  · rw [h2, h3, max2_nan_right, max2_nan_right]
    rfl

theorem trueRange_allReal {high low close : List PF}
    (hh : AllReal high) (hl : AllReal low) (hc : AllReal close)
    (hlh : low.length = high.length) (hch : close.length = high.length) :
    AllReal (trueRange high low close) := by
  intro j hj
  unfold trueRange at hj
  rw [buildSeries_length] at hj
  exact trueRange_realAt hh hl hc hlh hch hj

theorem cumsumAux_forall_real (l : List PF) (h : ∀ x ∈ l, x.isReal = true) :
    ∀ acc : PF, acc.isReal = true → ∀ y ∈ cumsumAux acc l, y.isReal = true := by
  induction l with
  | nil => intro _ _ y hy; simp [cumsumAux] at hy
  | cons x rest ih =>
    intro acc hacc y hy
    have hx : x.isReal = true := h x (by simp)
    have hxna : x.isna = false := by
      obtain ⟨q, rfl⟩ := (isReal_iff x).mp hx
      rfl
    rw [cumsumAux] at hy
    rw [if_neg (by simp [hxna])] at hy
    rw [List.mem_cons] at hy
    have hadd : (acc.add x).isReal = true := isReal_add hacc hx
    rcases hy with rfl | hy
    · exact hadd
    · exact ih (fun z hz => h z (by simp [hz])) _ hadd y hy

theorem calculate_obv_allReal {close volume : List PF}
    (hc : AllReal close) (hv : AllReal volume) (hlen : volume.length = close.length) :
    AllReal (calculate_obv close volume) := by
  have hin : ∀ y ∈ fillnaF (map2F PF.mul (mapF PF.sgn (diffF 1 close)) volume) 0,
      y.isReal = true := by
    intro y hy
    obtain ⟨j, hj, rfl⟩ := List.getElem_of_mem hy
    have hjlen : j < close.length := by
      simp [fillnaF, mapF_length, map2F_length, diffF_length, buildSeries_length] at hj
      exact hj
    rw [← List.getD_eq_getElem _ PF.nan]
    unfold fillnaF
    rw [mapF_getD _ _ _ (by
        rw [map2F_length, mapF_length, diffF_length]; exact hjlen),
      map2F_getD _ _ _ _ (by rw [mapF_length, diffF_length]; exact hjlen),
      mapF_getD _ _ _ (by rw [diffF_length]; exact hjlen)]
    rcases sgn_real_or_nan ((diffF 1 close).getD j PF.nan) with hs | hs
    · have hmul : ((PF.sgn ((diffF 1 close).getD j PF.nan)).mul
          (volume.getD j PF.nan)).isReal = true :=
        isReal_mul hs (hv j (by omega))
      obtain ⟨q, hq⟩ := (isReal_iff _).mp hmul
      rw [hq]
      simp [PF.isna, PF.isReal]
    · rw [hs, nan_mulPF]
      simp [PF.isna, PF.isReal]
  intro j hj
  unfold RealAt calculate_obv cumsumF
  apply getD_real_of_forall_mem (cumsumAux_forall_real _ hin (PF.val 0) rfl)
  rw [cumsumAux_length]
  unfold calculate_obv cumsumF at hj
  rwa [cumsumAux_length] at hj

theorem trueRange_length (high low close : List PF) :
    (trueRange high low close).length = high.length := by
  simp [trueRange, buildSeries_length]

theorem pctChange_length (k : ℕ) (xs : List PF) : (pctChange k xs).length = xs.length := by
  simp [pctChange, map2F_length]

theorem calculate_obv_length (close volume : List PF) :
    (calculate_obv close volume).length = close.length := by
  simp [calculate_obv, cumsumF, cumsumAux_length, fillnaF, mapF_length, map2F_length,
    diffF_length]

theorem slope_realAt {xs : List PF} {i : ℕ} (h5 : 5 ≤ i) (hi : i < xs.length)
    (h1 : RealAt xs i) (h2 : PosAt xs (i - 5)) :
    RealAt (mapF (fun x => x.mul (PF.val 100)) (pctChange 5 xs)) i := by
  unfold RealAt mapF
  rw [buildSeries_getD _ _ _ _ (by rw [pctChange_length]; exact hi)]
  unfold pctChange
  rw [map2F_getD _ _ _ _ hi]
  have hsh : (shiftF 5 xs).getD i PF.nan = xs.getD (i - 5) PF.nan := by
    unfold shiftF
    rw [buildSeries_getD _ _ _ _ hi, if_neg (by omega)]
  rw [hsh]
  obtain ⟨q, hq, hq0⟩ := h2
  rw [hq]
  exact isReal_mul (isReal_sub (isReal_div h1 (ne_of_gt hq0)) rfl) rfl

/-- C2 (amended): for every valid PriceSeries of length at least 252, every
indicator field at the last index is a defined (finite, non-NaN) number,
*except* the division-based fields RSI, Plus_DI, Minus_DI, DI_Spread, ADX,
BB_Position and Vol_Ratio, whose denominators can vanish on degenerate (e.g.
constant-price, zero-volume) valid input — see the counterexample.  All
remaining 23 fields are defined: moving averages, slopes, ROC, the MACD
family, volume SMAs, OBV and its EMA, the Bollinger bands, ATR and ATR%, and
the rolling highs (ADX_Rising is a boolean column, defined by type). -/
theorem c2_warmed_up_fields_defined (bars : List Bar)
    (hvalid : validSeries bars = true) (hlen : 252 ≤ bars.length) :
    (((calculate_all_indicators bars).EMA_20.getD (bars.length - 1) PF.nan).isReal = true) ∧
    (((calculate_all_indicators bars).SMA_50.getD (bars.length - 1) PF.nan).isReal = true) ∧
    (((calculate_all_indicators bars).SMA_200.getD (bars.length - 1) PF.nan).isReal = true) ∧
    (((calculate_all_indicators bars).EMA_20_slope.getD (bars.length - 1) PF.nan).isReal = true) ∧
    (((calculate_all_indicators bars).SMA_50_slope.getD (bars.length - 1) PF.nan).isReal = true) ∧
    (((calculate_all_indicators bars).SMA_200_slope.getD (bars.length - 1) PF.nan).isReal = true) ∧
    (((calculate_all_indicators bars).ROC.getD (bars.length - 1) PF.nan).isReal = true) ∧
    (((calculate_all_indicators bars).MACD.getD (bars.length - 1) PF.nan).isReal = true) ∧
    (((calculate_all_indicators bars).MACD_Signal.getD (bars.length - 1) PF.nan).isReal = true) ∧
    (((calculate_all_indicators bars).MACD_Hist.getD (bars.length - 1) PF.nan).isReal = true) ∧
    (((calculate_all_indicators bars).Hist_Momentum.getD (bars.length - 1) PF.nan).isReal = true) ∧
    (((calculate_all_indicators bars).Vol_SMA_20.getD (bars.length - 1) PF.nan).isReal = true) ∧
    (((calculate_all_indicators bars).Vol_SMA_50.getD (bars.length - 1) PF.nan).isReal = true) ∧
    (((calculate_all_indicators bars).OBV.getD (bars.length - 1) PF.nan).isReal = true) ∧
    (((calculate_all_indicators bars).OBV_EMA.getD (bars.length - 1) PF.nan).isReal = true) ∧
    (((calculate_all_indicators bars).BB_Upper.getD (bars.length - 1) PF.nan).isReal = true) ∧
    (((calculate_all_indicators bars).BB_Middle.getD (bars.length - 1) PF.nan).isReal = true) ∧
    (((calculate_all_indicators bars).BB_Lower.getD (bars.length - 1) PF.nan).isReal = true) ∧
    (((calculate_all_indicators bars).ATR.getD (bars.length - 1) PF.nan).isReal = true) ∧
    (((calculate_all_indicators bars).ATR_Percent.getD (bars.length - 1) PF.nan).isReal = true) ∧
    (((calculate_all_indicators bars).High_52W.getD (bars.length - 1) PF.nan).isReal = true) ∧
    (((calculate_all_indicators bars).High_4W.getD (bars.length - 1) PF.nan).isReal = true) ∧
    (((calculate_all_indicators bars).High_2W.getD (bars.length - 1) PF.nan).isReal = true) := by
  have hmem := validSeries_mem hvalid
  have hposC : AllPos (bars.map fun b => PF.val b.close) :=
    mapCol_allPos bars _ (fun b hb => (hmem b hb).2.2.2.1)
  have hposH : AllPos (bars.map fun b => PF.val b.high) :=
    mapCol_allPos bars _ (fun b hb => (hmem b hb).2.1)
  have hposL : AllPos (bars.map fun b => PF.val b.low) :=
    mapCol_allPos bars _ (fun b hb => (hmem b hb).2.2.1)
  have hrC := hposC.allReal
  have hrH := hposH.allReal
  have hrL := hposL.allReal
  have hrV : AllReal (bars.map fun b => PF.val b.volume) := mapCol_allReal bars _
  have hCl : (bars.map fun b => PF.val b.close).length = bars.length :=
    List.length_map _ _
  have hHl : (bars.map fun b => PF.val b.high).length = bars.length :=
    List.length_map _ _
  have hLl : (bars.map fun b => PF.val b.low).length = bars.length :=
    List.length_map _ _
  have hVl : (bars.map fun b => PF.val b.volume).length = bars.length :=
    List.length_map _ _
  have hL1 : bars.length - 1 < bars.length := by omega
  have hmacdR : AllReal (map2F PF.sub (ewmMean 12 (bars.map fun b => PF.val b.close))
      (ewmMean 26 (bars.map fun b => PF.val b.close))) := by
    intro j hj
    rw [map2F_length, ewmMean_length] at hj
    unfold RealAt
    rw [map2F_getD _ _ _ _ (by rw [ewmMean_length]; exact hj)]
    exact isReal_sub (ewmMean_allReal hrC j (by rw [ewmMean_length]; exact hj))
      (ewmMean_allReal hrC j (by rw [ewmMean_length]; exact hj))
  have hmacdl : (map2F PF.sub (ewmMean 12 (bars.map fun b => PF.val b.close))
      (ewmMean 26 (bars.map fun b => PF.val b.close))).length = bars.length := by
    rw [map2F_length, ewmMean_length, hCl]
  have hhistR : AllReal (map2F PF.sub
      (map2F PF.sub (ewmMean 12 (bars.map fun b => PF.val b.close))
        (ewmMean 26 (bars.map fun b => PF.val b.close)))
      (ewmMean 9 (map2F PF.sub (ewmMean 12 (bars.map fun b => PF.val b.close))
        (ewmMean 26 (bars.map fun b => PF.val b.close))))) := by
    intro j hj
    rw [map2F_length, hmacdl] at hj
    unfold RealAt
    rw [map2F_getD _ _ _ _ (by rw [hmacdl]; exact hj)]
    exact isReal_sub (hmacdR j (by rw [hmacdl]; exact hj))
      (ewmMean_allReal hmacdR j (by rw [ewmMean_length, hmacdl]; exact hj))
  have htrR : AllReal (trueRange (bars.map fun b => PF.val b.high)
      (bars.map fun b => PF.val b.low) (bars.map fun b => PF.val b.close)) :=
    trueRange_allReal hrH hrL hrC (by rw [hLl, hHl]) (by rw [hCl, hHl])
  have htrl : (trueRange (bars.map fun b => PF.val b.high)
      (bars.map fun b => PF.val b.low) (bars.map fun b => PF.val b.close)).length =
      bars.length := by rw [trueRange_length, hHl]
  have hobvR : AllReal (calculate_obv (bars.map fun b => PF.val b.close)
      (bars.map fun b => PF.val b.volume)) :=
    calculate_obv_allReal hrC hrV (by rw [hVl, hCl])
  have hobvl : (calculate_obv (bars.map fun b => PF.val b.close)
      (bars.map fun b => PF.val b.volume)).length = bars.length := by
    rw [calculate_obv_length, hCl]
  refine ⟨?_, ?_, ?_, ?_, ?_, ?_, ?_, ?_, ?_, ?_, ?_, ?_, ?_, ?_, ?_, ?_, ?_, ?_,
    ?_, ?_, ?_, ?_, ?_⟩
  · -- EMA_20
    simp only [calculate_all_indicators, calculate_ema]
    exact ewmMean_allReal hrC _ (by rw [ewmMean_length, hCl]; omega)
  · -- SMA_50
    simp only [calculate_all_indicators, calculate_sma]
    exact rollingMean_realAt hrC (by omega) (by omega) (by rw [hCl]; omega)
  · -- SMA_200
    simp only [calculate_all_indicators, calculate_sma]
    exact rollingMean_realAt hrC (by omega) (by omega) (by rw [hCl]; omega)
  · -- EMA_20_slope
    simp only [calculate_all_indicators, calculate_ema]
    exact slope_realAt (by omega) (by rw [ewmMean_length, hCl]; omega)
      (ewmMean_allReal hrC _ (by rw [ewmMean_length, hCl]; omega))
      ((ewmMean_allPos (by omega) hposC) _ (by rw [ewmMean_length, hCl]; omega))
  · -- SMA_50_slope
    simp only [calculate_all_indicators, calculate_sma]
    exact slope_realAt (by omega) (by rw [rollingMean_length, hCl]; omega)
      (rollingMean_realAt hrC (by omega) (by omega) (by rw [hCl]; omega))
      (rollingMean_posAt hposC (by omega) (by omega) (by rw [hCl]; omega))
  · -- SMA_200_slope
    simp only [calculate_all_indicators, calculate_sma]
    exact slope_realAt (by omega) (by rw [rollingMean_length, hCl]; omega)
      (rollingMean_realAt hrC (by omega) (by omega) (by rw [hCl]; omega))
      (rollingMean_posAt hposC (by omega) (by omega) (by rw [hCl]; omega))
  · -- ROC
    simp only [calculate_all_indicators, calculate_roc]
    rw [map2F_getD _ _ _ _ (by rw [hCl]; omega)]
    have hsh : (shiftF 10 (bars.map fun b => PF.val b.close)).getD
        (bars.length - 1) PF.nan =
        (bars.map fun b => PF.val b.close).getD (bars.length - 1 - 10) PF.nan := by
      unfold shiftF
      rw [buildSeries_getD _ _ _ _ (by rw [hCl]; omega), if_neg (by omega)]
    rw [hsh]
    obtain ⟨q, hq, hq0⟩ := hposC (bars.length - 1 - 10) (by rw [hCl]; omega)
    rw [hq]
    exact isReal_mul (isReal_div (isReal_sub
      (hrC _ (by rw [hCl]; omega)) rfl) (ne_of_gt hq0)) rfl
  · -- MACD
    simp only [calculate_all_indicators, calculate_macd, calculate_ema]
    exact hmacdR _ (by rw [hmacdl]; omega)
  · -- MACD_Signal
    simp only [calculate_all_indicators, calculate_macd, calculate_ema]
    exact ewmMean_allReal hmacdR _ (by rw [ewmMean_length, hmacdl]; omega)
  · -- MACD_Hist
    simp only [calculate_all_indicators, calculate_macd, calculate_ema]
    exact hhistR _ (by rw [map2F_length, hmacdl]; omega)
  · -- Hist_Momentum
    simp only [calculate_all_indicators, calculate_macd, calculate_ema]
    unfold diffF
    rw [buildSeries_getD _ _ _ _ (by rw [map2F_length, hmacdl]; omega),
      if_neg (by omega)]
    exact isReal_sub (hhistR _ (by rw [map2F_length, hmacdl]; omega))
      (hhistR _ (by rw [map2F_length, hmacdl]; omega))
  · -- Vol_SMA_20
    simp only [calculate_all_indicators]
    exact rollingMean_realAt hrV (by omega) (by omega) (by rw [hVl]; omega)
  · -- Vol_SMA_50
    simp only [calculate_all_indicators]
    exact rollingMean_realAt hrV (by omega) (by omega) (by rw [hVl]; omega)
  · -- OBV
    simp only [calculate_all_indicators]
    exact hobvR _ (by rw [hobvl]; omega)
  · -- OBV_EMA
    simp only [calculate_all_indicators]
    exact ewmMean_allReal hobvR _ (by rw [ewmMean_length, hobvl]; omega)
  · -- BB_Upper
    simp only [calculate_all_indicators, calculate_bollinger_bands, calculate_sma]
    rw [map2F_getD _ _ _ _ (by rw [rollingMean_length, hCl]; omega),
      mapF_getD _ _ _ (by rw [rollingStd_length, hCl]; omega)]
    exact isReal_add
      (rollingMean_realAt hrC (by omega) (by omega) (by rw [hCl]; omega))
      (isReal_mul (rollingStd_realAt hrC (by omega) (by omega) (by rw [hCl]; omega)) rfl)
  · -- BB_Middle
    simp only [calculate_all_indicators, calculate_bollinger_bands, calculate_sma]
    exact rollingMean_realAt hrC (by omega) (by omega) (by rw [hCl]; omega)
  · -- BB_Lower
    simp only [calculate_all_indicators, calculate_bollinger_bands, calculate_sma]
    rw [map2F_getD _ _ _ _ (by rw [rollingMean_length, hCl]; omega),
      mapF_getD _ _ _ (by rw [rollingStd_length, hCl]; omega)]
    exact isReal_sub
      (rollingMean_realAt hrC (by omega) (by omega) (by rw [hCl]; omega))
      (isReal_mul (rollingStd_realAt hrC (by omega) (by omega) (by rw [hCl]; omega)) rfl)
  · -- ATR
    simp only [calculate_all_indicators, calculate_atr]
    exact rollingMean_realAt htrR (by omega) (by omega) (by rw [htrl]; omega)
  · -- ATR_Percent
    simp only [calculate_all_indicators, calculate_atr]
    rw [map2F_getD _ _ _ _ (by rw [rollingMean_length, htrl]; omega)]
    obtain ⟨q, hq, hq0⟩ := hposC (bars.length - 1) (by rw [hCl]; omega)
    rw [hq]
    exact isReal_mul (isReal_div
      (rollingMean_realAt htrR (by omega) (by omega) (by rw [htrl]; omega))
      (ne_of_gt hq0)) rfl
  · -- High_52W
    simp only [calculate_all_indicators]
    exact rollingMax_realAt hrH (by omega) (by omega) (by rw [hHl]; omega)
  · -- High_4W
    simp only [calculate_all_indicators]
    exact rollingMax_realAt hrH (by omega) (by omega) (by rw [hHl]; omega)
  · -- High_2W
    simp only [calculate_all_indicators]
    exact rollingMax_realAt hrH (by omega) (by omega) (by rw [hHl]; omega)

/-!  ## C2: counterexample and witness  -/

theorem rollingStd_replicate_val (w n : ℕ) (q : ℚ) (hw : 2 ≤ w) :
    rollingStd w (List.replicate n (PF.val q)) =
      buildSeries n (fun i => if i + 1 < w then PF.nan else PF.val 0) := by
  unfold rollingStd
  rw [List.length_replicate]
  apply buildSeries_congr
  intro i hi
  by_cases h1 : i + 1 < w
  · simp [h1]
  · rw [if_neg h1, if_neg h1]
    rw [windowAt_replicate_val w i n q (by omega) hi]
    simp only [any_isna_replicate_val, Bool.false_eq_true, if_false]
    rw [sumPF_replicate_val]
    have hwq : (w : ℚ) ≠ 0 := by positivity
    have hmean : PF.div (PF.val (w * q)) (PF.val w) = PF.val q := by
      simp only [PF.div, if_neg hwq]
      rw [mul_div_cancel_left₀ q hwq]
    show pfSqrt ((sumPF (List.map _ (List.replicate w (PF.val q)))).div _) = PF.val 0
    rw [hmean, List.map_replicate, val_sub_val_self]
    have hz : (PF.val 0).mul (PF.val 0) = PF.val 0 := by
      simp [PF.mul]
    rw [hz, sumPF_replicate_val]
    have hw1 : ((w - 1 : ℕ) : ℚ) ≠ 0 := by
      have : 1 ≤ w - 1 := by omega
      positivity
    simp only [mul_zero, PF.div, if_neg hw1, zero_div]
    show pfSqrt (PF.val 0) = PF.val 0
    with_unfolding_all decide

/-- A flat, §3-valid 252-bar series: constant unit price, zero volume. -/
def flat252 : List Bar :=
  (List.range 252).map fun i =>
    { date := i, openPrice := 1, high := 1, low := 1, close := 1, volume := 0 }

theorem flat252_close :
    flat252.map (fun b => PF.val b.close) = List.replicate 252 (PF.val 1) := by
  unfold flat252
  rw [List.map_map]
  show (List.range 252).map (fun _ => PF.val 1) = _
  rw [List.map_const']
  simp

theorem flat252_high :
    flat252.map (fun b => PF.val b.high) = List.replicate 252 (PF.val 1) := by
  unfold flat252
  rw [List.map_map]
  show (List.range 252).map (fun _ => PF.val 1) = _
  rw [List.map_const']
  simp

theorem flat252_low :
    flat252.map (fun b => PF.val b.low) = List.replicate 252 (PF.val 1) := by
  unfold flat252
  rw [List.map_map]
  show (List.range 252).map (fun _ => PF.val 1) = _
  rw [List.map_const']
  simp

theorem flat252_volume :
    flat252.map (fun b => PF.val b.volume) = List.replicate 252 (PF.val 0) := by
  unfold flat252
  rw [List.map_map]
  show (List.range 252).map (fun _ => PF.val 0) = _
  rw [List.map_const']
  simp

/-- Counterexample to C2 as stated: `flat252` satisfies every §3 invariant and
has 252 bars, yet at the last index RSI, +DI, -DI, the DI spread, ADX, the
Bollinger position and the volume ratio are all NaN (undefined): their
defining divisions degenerate to `0/0` on this valid input. -/
theorem c2_warmed_up_fields_counterexample :
    validSeries flat252 = true ∧
    flat252.length = 252 ∧
    (calculate_all_indicators flat252).RSI.getD 251 PF.nan = PF.nan ∧
    (calculate_all_indicators flat252).Plus_DI.getD 251 PF.nan = PF.nan ∧
    (calculate_all_indicators flat252).Minus_DI.getD 251 PF.nan = PF.nan ∧
    (calculate_all_indicators flat252).DI_Spread.getD 251 PF.nan = PF.nan ∧
    (calculate_all_indicators flat252).ADX.getD 251 PF.nan = PF.nan ∧
    (calculate_all_indicators flat252).BB_Position.getD 251 PF.nan = PF.nan ∧
    (calculate_all_indicators flat252).Vol_Ratio.getD 251 PF.nan = PF.nan := by
  refine ⟨by with_unfolding_all decide, by with_unfolding_all decide, ?_, ?_, ?_, ?_,
    ?_, ?_, ?_⟩
  · simp only [calculate_all_indicators]
    rw [flat252_close, calculate_rsi_replicate_val, replicate_nan_getD]
  · simp only [calculate_all_indicators]
    rw [flat252_high, flat252_low, flat252_close, calculate_adx_replicate_val]
    exact replicate_nan_getD 252 251
  · simp only [calculate_all_indicators]
    rw [flat252_high, flat252_low, flat252_close, calculate_adx_replicate_val]
    exact replicate_nan_getD 252 251
  · simp only [calculate_all_indicators]
    rw [flat252_high, flat252_low, flat252_close, calculate_adx_replicate_val]
    show (map2F PF.sub (List.replicate 252 PF.nan) (List.replicate 252 PF.nan)).getD
      251 PF.nan = PF.nan
    rw [map2F_replicate]
    exact replicate_nan_getD 252 251
  · simp only [calculate_all_indicators]
    rw [flat252_high, flat252_low, flat252_close, calculate_adx_replicate_val]
    exact replicate_nan_getD 252 251
  · simp only [calculate_all_indicators, calculate_bollinger_bands, calculate_sma]
    rw [flat252_close, rollingMean_replicate_val 20 252 1 (by omega),
      rollingStd_replicate_val 20 252 1 (by omega), List.length_replicate]
    rw [buildSeries_getD _ _ _ _ (by omega)]
    have hstd : (mapF (fun s => s.mul (PF.val 2))
        (buildSeries 252 fun i => if i + 1 < 20 then PF.nan else PF.val 0)).getD
        251 PF.nan = PF.val 0 := by
      rw [mapF_getD _ _ _ (by rw [buildSeries_length]; omega),
        buildSeries_getD _ _ _ _ (by omega)]
      norm_num
      with_unfolding_all decide
    have hup : (map2F PF.add
        (buildSeries 252 fun i => if i + 1 < 20 then PF.nan else PF.val 1)
        (mapF (fun s => s.mul (PF.val 2))
          (buildSeries 252 fun i => if i + 1 < 20 then PF.nan else PF.val 0))).getD
        251 PF.nan = PF.val 1 := by
      rw [map2F_getD _ _ _ _ (by rw [buildSeries_length]; omega),
        buildSeries_getD _ _ _ _ (by omega), hstd]
      norm_num
      with_unfolding_all decide
    have hlo : (map2F PF.sub
        (buildSeries 252 fun i => if i + 1 < 20 then PF.nan else PF.val 1)
        (mapF (fun s => s.mul (PF.val 2))
          (buildSeries 252 fun i => if i + 1 < 20 then PF.nan else PF.val 0))).getD
        251 PF.nan = PF.val 1 := by
      rw [map2F_getD _ _ _ _ (by rw [buildSeries_length]; omega),
        buildSeries_getD _ _ _ _ (by omega), hstd]
      norm_num
      with_unfolding_all decide
    rw [hup, hlo, replicate_getD 252 _ _ 251 (by omega)]
    with_unfolding_all decide
  · simp only [calculate_all_indicators]
    rw [flat252_volume, rollingMean_replicate_val 20 252 0 (by omega)]
    rw [mapF_getD _ _ _ (by rw [map2F_length, List.length_replicate]; omega),
      map2F_getD _ _ _ _ (by rw [List.length_replicate]; omega),
      replicate_getD 252 _ _ 251 (by omega),
      buildSeries_getD _ _ _ _ (by omega)]
    norm_num
    with_unfolding_all decide

/-- Witness for C2 (amended): the valid 252-bar series `flat252` satisfies the
hypotheses, so e.g. its EMA_20 at the last index is a defined number. -/
theorem c2_warmed_up_fields_defined_witness :
    ((calculate_all_indicators flat252).EMA_20.getD (flat252.length - 1)
      PF.nan).isReal = true :=
  (c2_warmed_up_fields_defined flat252 (by with_unfolding_all decide)
    (by with_unfolding_all decide)).1
